import Mathlib

/-!
# go-lifegame: a shallow embedding of `main.go`

The grid engine of the program (`screen`, `newScreen`, `checkPattern`,
`setPattern`, `isSafeIdx`, `countLivingNeighbor`, `nextCellState`, `nextGen`)
is translated function by function.

* Go `int` is `Int`.  The only arithmetic in the engine is `x ± 1`, `y ± 1`,
  `len + offset` and `index + offset`; every coordinate that is tested by
  `isSafeIdx` is the very expression that is used as the index afterwards.
  The sums `len + offset` of `checkPattern` are not wrapped; they differ from
  Go only for offsets within `len` of the largest `int`, and the statements
  about `checkPattern` at given offsets use small offsets.
* `newScreen` takes the two `make` calls to succeed.  `newScreenChecked` adds
  the length check of `make` (`makeslice`), which panics for sizes beyond
  `maxAlloc` bytes; running out of memory below that limit is not modelled.
* `[][]bool` is `List (List Bool)`.  That the arrays made by `newScreen` are
  not shared with an existing grid is not assumed: `Heap`, `screenRef` and
  `nextGenRef` model `newScreen` and `nextGen` on a heap of backing arrays, and
  `nextGenRef_eq` shows that they compute what the list model computes.
* A run-time panic is the `error` case of `Except GoPanic`; an `error` value
  returned by the Go function is a `GoError`.
* Methods with a pointer receiver that write to the receiver return the new
  receiver state next to their Go result.
* `gameStart` is run for a bounded number of passes of its endless loop; the
  timer that paces the passes is left out.
-/

namespace Lifegame

/-- Run-time panics that the engine can raise. -/
inductive GoPanic
  | indexOutOfRange
  | nextStatus
  | makesliceLen
  deriving DecidableEq, Repr

/-- The `error` values built with `fmt.Errorf` in `main.go`. -/
inductive GoError
  | colSize
  | rowSize
  | patternRowSize
  | patternColumnSize
  | patternRowFit
  | patternColumnFit
  deriving DecidableEq, Repr

/-- The message carried by each error value. -/
def GoError.Error : GoError → String
  | .colSize => "colSize must be greater than 0"
  | .rowSize => "rowSize must be greater than 0"
  | .patternRowSize => "pattern row size must be greater than 1"
  | .patternColumnSize => "pattern column size should be same each row"
  | .patternRowFit => "pattern row size couldn't into field"
  | .patternColumnFit => "pattern column size couldn't into field"

/-- Message of a panic: the two run-time errors and the explicit panic at the end
of `nextCellState`. -/
def GoPanic.message : GoPanic → String
  | .indexOutOfRange => "runtime error: index out of range"
  | .nextStatus => "couldn't determine next status"
  | .makesliceLen => "runtime error: makeslice: len out of range"

/-- The Go struct `screen`. -/
structure screen where
  RowsCount : Int
  ColsCount : Int
  Field : List (List Bool)
  deriving DecidableEq, Repr

/-- FieldColSize is screen column size. -/
def FieldColSize : Int := 40

/-- FieldRowSize is screen row size. -/
def FieldRowSize : Int := 25

def gliderPattern : List (List Bool) :=
  [ [true, true, true],
    [true, false, false],
    [false, true, false] ]

def blockPattern : List (List Bool) :=
  [ [true, true],
    [true, true] ]

def honeycombPattern : List (List Bool) :=
  [ [false, false, true, true, false, false],
    [true, false, false, false, false, true],
    [true, false, false, false, false, true],
    [false, false, true, true, false, false] ]

/-- The index expression `s[i]` read: panics unless `0 <= i < len(s)`. -/
def index {α : Type} (s : List α) (i : Int) : Except GoPanic α :=
  if i < 0 then .error .indexOutOfRange
  else
    match s[i.toNat]? with
    | some a => .ok a
    | none => .error .indexOutOfRange

/-- The assignment `s[i] = v`: panics unless `0 <= i < len(s)`. -/
def assign {α : Type} (s : List α) (i : Int) (v : α) : Except GoPanic (List α) :=
  if i < 0 then .error .indexOutOfRange
  else if i.toNat < s.length then .ok (s.set i.toNat v)
  else .error .indexOutOfRange

/-- The assignment `f[r][c] = v` on a slice of slices. -/
def assign2 (f : List (List Bool)) (r c : Int) (v : Bool) :
    Except GoPanic (List (List Bool)) :=
  match index f r with
  | .error e => .error e
  | .ok row =>
    match assign row c v with
    | .error e => .error e
    | .ok row1 => assign f r row1

/-- Go `newScreen(colSize, rowSize)`, both `make` calls taken to succeed. -/
def newScreen (colSize rowSize : Int) : Except GoError screen :=
  if colSize ≤ 0 then .error .colSize
  else if rowSize ≤ 0 then .error .rowSize
  else
    let rows : List (List Bool) := List.replicate rowSize.toNat []
    let rows := rows.map (fun _ => List.replicate colSize.toNat false)
    .ok { RowsCount := rowSize, ColsCount := colSize, Field := rows }

/-- The largest number of bytes that one `make` may ask for: `maxAlloc` of the Go
runtime, `2^48` on 64-bit platforms such as amd64. -/
def maxAlloc : Int := 281474976710656

/-- The length check of `make([]T, len)` for elements of `elemSize` bytes
(`runtime.makeslice`): a panic `makeslice: len out of range` when `len` is
negative or `elemSize * len` bytes exceed `maxAlloc` (this covers the case that
the product does not fit a machine word). -/
def makeslice (elemSize len : Int) : Except GoPanic Unit :=
  if len < 0 ∨ maxAlloc < elemSize * len then .error .makesliceLen
  else .ok ()

/-- Go `newScreen(colSize, rowSize)` with the length checks of its two `make`
calls: `make([][]bool, rowSize)`, whose elements are slice headers of 24 bytes,
and `make([]bool, colSize)`, whose elements take one byte and which runs in every
pass of the loop over the `rowSize > 0` rows. -/
def newScreenChecked (colSize rowSize : Int) : Except GoPanic (Except GoError screen) :=
  if colSize ≤ 0 then .ok (.error .colSize)
  else if rowSize ≤ 0 then .ok (.error .rowSize)
  else
    match makeslice 24 rowSize with
    | .error e => .error e
    | .ok _ =>
      match makeslice 1 colSize with
      | .error e => .error e
      | .ok _ =>
        let rows : List (List Bool) := List.replicate rowSize.toNat []
        let rows := rows.map (fun _ => List.replicate colSize.toNat false)
        .ok (.ok { RowsCount := rowSize, ColsCount := colSize, Field := rows })

/-- Go `(sc *screen) checkPattern(pattern, x, y)`; `none` is the nil error. -/
def checkPattern (sc : screen) (pattern : List (List Bool)) (x y : Int) :
    Except GoPanic (Option GoError) :=
  let rowSize : Int := pattern.length
  if rowSize ≤ 0 then .ok (some .patternRowSize)
  else
    match index pattern 0 with
    | .error e => .error e
    | .ok first =>
      let colSize : Int := first.length
      if pattern.any (fun cols => decide (colSize ≠ (cols.length : Int))) then
        .ok (some .patternColumnSize)
      else if (sc.Field.length : Int) + y < rowSize then
        .ok (some .patternRowFit)
      else
        match index sc.Field 0 with
        | .error e => .error e
        | .ok row0 =>
          if (row0.length : Int) + x < colSize then .ok (some .patternColumnFit)
          else .ok none

/-- Inner loop of `setPattern`: `for k, col := range row { sc.Field[i+y][k+x] = col }`,
started at column index `k`. -/
def setPatternRow (i x y : Int) : Nat → List Bool → List (List Bool) →
    Except GoPanic (List (List Bool))
  | _, [], f => .ok f
  | k, col :: rest, f =>
    match assign2 f (i + y) ((k : Int) + x) col with
    | .error e => .error e
    | .ok f1 => setPatternRow i x y (k + 1) rest f1

/-- Outer loop of `setPattern`: `for i, row := range pattern { ... }`,
started at row index `i`. -/
def setPatternRows (x y : Int) : Nat → List (List Bool) → List (List Bool) →
    Except GoPanic (List (List Bool))
  | _, [], f => .ok f
  | i, row :: rest, f =>
    match setPatternRow (i : Int) x y 0 row f with
    | .error e => .error e
    | .ok f1 => setPatternRows x y (i + 1) rest f1

/-- Go `(sc *screen) setPattern(pattern, x, y)`: the receiver after the call
and the returned error (`none` is nil). -/
def setPattern (sc : screen) (pattern : List (List Bool)) (x y : Int) :
    Except GoPanic (screen × Option GoError) :=
  match checkPattern sc pattern x y with
  | .error e => .error e
  | .ok (some err) => .ok (sc, some err)
  | .ok none =>
    match setPatternRows x y 0 pattern sc.Field with
    | .error e => .error e
    | .ok f => .ok ({ sc with Field := f }, none)

/-- Go `(sc *screen) isSafeIdx(x, y)`. -/
def isSafeIdx (sc : screen) (x y : Int) : Except GoPanic Bool :=
  let maxRow : Int := sc.Field.length
  match index sc.Field 0 with
  | .error e => .error e
  | .ok row0 =>
    let maxCol : Int := row0.length
    if x < 0 ∨ y < 0 then .ok false
    else if maxRow ≤ y ∨ maxCol ≤ x then .ok false
    else .ok true

/-- The condition `sc.isSafeIdx(x, y) && sc.Field[y][x] == true` that guards each
of the eight increments of `countLivingNeighbor` (`&&` short-circuits). -/
def livingAt (sc : screen) (x y : Int) : Except GoPanic Bool :=
  match isSafeIdx sc x y with
  | .error e => .error e
  | .ok false => .ok false
  | .ok true =>
    match index sc.Field y with
    | .error e => .error e
    | .ok row =>
      match index row x with
      | .error e => .error e
      | .ok cell => .ok (cell == true)

/-- One `if cond { counter++ }` statement. -/
def incrIf (cond : Except GoPanic Bool) (counter : Int) : Except GoPanic Int :=
  match cond with
  | .error e => .error e
  | .ok true => .ok (counter + 1)
  | .ok false => .ok counter

/-- Go `(sc *screen) countLivingNeighbor(x, y)`. -/
def countLivingNeighbor (sc : screen) (x y : Int) : Except GoPanic Int := do
  let counter : Int := 0
  -- left top
  let counter ← incrIf (livingAt sc (x - 1) (y - 1)) counter
  -- top
  let counter ← incrIf (livingAt sc x (y - 1)) counter
  -- right top
  let counter ← incrIf (livingAt sc (x + 1) (y - 1)) counter
  -- left
  let counter ← incrIf (livingAt sc (x - 1) y) counter
  -- right
  let counter ← incrIf (livingAt sc (x + 1) y) counter
  -- left bottom
  let counter ← incrIf (livingAt sc (x - 1) (y + 1)) counter
  -- bottom
  let counter ← incrIf (livingAt sc x (y + 1)) counter
  -- right bottom
  let counter ← incrIf (livingAt sc (x + 1) (y + 1)) counter
  pure counter

/-- The decision chain of `nextCellState` on the neighbour count `n`. -/
def nextCellStateOf (n : Int) : Except GoPanic Bool :=
  -- birth
  if n = 3 then .ok true
  -- living
  else if n = 2 ∨ n = 3 then .ok true
  -- depopulation
  else if n ≤ 1 then .ok false
  -- overcrowding
  else if 4 ≤ n then .ok false
  else .error .nextStatus

/-- Go `(sc *screen) nextCellState(x, y)`. -/
def nextCellState (sc : screen) (x y : Int) : Except GoPanic Bool :=
  match countLivingNeighbor sc x y with
  | .error e => .error e
  | .ok n => nextCellStateOf n

/-- Inner loop of `nextGen`: `for x := range rows { next.Field[y][x] = sc.nextCellState(x, y) }`,
started at column index `x`. -/
def nextGenRow (sc : screen) (y : Int) : Nat → List Bool → List (List Bool) →
    Except GoPanic (List (List Bool))
  | _, [], f => .ok f
  | x, _ :: rest, f =>
    match nextCellState sc (x : Int) y with
    | .error e => .error e
    | .ok v =>
      match assign2 f y (x : Int) v with
      | .error e => .error e
      | .ok f1 => nextGenRow sc y (x + 1) rest f1

/-- Outer loop of `nextGen`: `for y, rows := range sc.Field { ... }`,
started at row index `y`. -/
def nextGenRows (sc : screen) : Nat → List (List Bool) → List (List Bool) →
    Except GoPanic (List (List Bool))
  | _, [], f => .ok f
  | y, rows :: rest, f =>
    match nextGenRow sc (y : Int) 0 rows f with
    | .error e => .error e
    | .ok f1 => nextGenRows sc (y + 1) rest f1

/-- Go `(sc *screen) nextGen()`: the new grid or the returned error. -/
def nextGen (sc : screen) : Except GoPanic (Except GoError screen) :=
  match newScreen sc.ColsCount sc.RowsCount with
  | .error err => .ok (.error err)
  | .ok next =>
    match nextGenRows sc 0 sc.Field next.Field with
    | .error e => .error e
    | .ok f => .ok (.ok { next with Field := f })

/-- The Go expression `f[y][x]` read. -/
def readCell (f : List (List Bool)) (x y : Int) : Except GoPanic Bool :=
  match index f y with
  | .error e => .error e
  | .ok row => index row x

/-- The grid invariant. -/
def valid (sc : screen) : Prop :=
  0 < sc.RowsCount ∧ 0 < sc.ColsCount ∧ (sc.Field.length : Int) = sc.RowsCount ∧
    ∀ row ∈ sc.Field, (row.length : Int) = sc.ColsCount

instance (sc : screen) : Decidable (valid sc) := by
  unfold valid; infer_instance

/-- A field of `R` rows with `C` cells each. -/
def shape (f : List (List Bool)) (R C : Nat) : Prop :=
  f.length = R ∧ ∀ row ∈ f, row.length = C

/-- Cell `(r, c)` of a field, when it exists. -/
def get2 (f : List (List Bool)) (r c : Nat) : Option Bool :=
  match f[r]? with
  | none => none
  | some row => row[c]?

/-- The field after the write `f[r][c] = v`. -/
def put (f : List (List Bool)) (r c : Nat) (v : Bool) : List (List Bool) :=
  f.set r ((f[r]?.getD []).set c v)

/-- Whether `(x, y)` is a living cell of the field: inside it and `true`. -/
def alive (f : List (List Bool)) (x y : Int) : Bool :=
  decide (0 ≤ x) && decide (0 ≤ y) && (get2 f y.toNat x.toNat == some true)

/-- The eight Moore offsets `(dx, dy)`, in the order `countLivingNeighbor` visits them. -/
def mooreOffsets : List (Int × Int) :=
  [(-1, -1), (0, -1), (1, -1), (-1, 0), (1, 0), (-1, 1), (0, 1), (1, 1)]

/-- Number of Moore offsets that lead to a living cell of the field. -/
def livingNeighbors (f : List (List Bool)) (x y : Int) : Int :=
  ((mooreOffsets.filter (fun d => alive f (x + d.1) (y + d.2))).length : Int)

/-- Closed form of `nextCellState` on a rectangular field. -/
def nextState (f : List (List Bool)) (x y : Int) : Bool :=
  decide (livingNeighbors f x y = 2 ∨ livingNeighbors f x y = 3)

/-- Closed form of the field built by `nextGen`: `R` rows of `C` cells. -/
def nextField (f : List (List Bool)) (R C : Nat) : List (List Bool) :=
  (List.range R).map fun (r : Nat) =>
    (List.range C).map fun (c : Nat) => nextState f (c : Int) (r : Int)

deriving instance DecidableEq for Except

/-- The grid with `R` rows and `C` columns whose living cells are exactly the
listed `(x, y)` coordinates. -/
def gridWith (R C : Nat) (cells : List (Nat × Nat)) : screen :=
  { RowsCount := R
    ColsCount := C
    Field := (List.range R).map fun (r : Nat) =>
      (List.range C).map fun (c : Nat) => decide ((c, r) ∈ cells) }

/-- The five cells of `gliderPattern` placed at offset `(x, y)`. -/
def gliderCells (x y : Nat) : List (Nat × Nat) :=
  [(x, y), (x + 1, y), (x + 2, y), (x, y + 1), (x + 1, y + 2)]

/-- The four cells of `blockPattern` placed at offset `(x, y)`. -/
def blockCells (x y : Nat) : List (Nat × Nat) :=
  [(x, y), (x + 1, y), (x, y + 1), (x + 1, y + 1)]

/-- The loop body `sc, err = sc.nextGen()` of `gameStart` run `n` times, stopping
at the first error. -/
def nextGenN : Nat → screen → Except GoPanic (Except GoError screen)
  | 0, sc => .ok (.ok sc)
  | n + 1, sc =>
    match nextGen sc with
    | .error e => .error e
    | .ok (.error err) => .ok (.error err)
    | .ok (.ok next) => nextGenN n next

/-- Conway's rule as the specification words it: a cell is live in the next
generation iff it was live with 2 or 3 live neighbours, or dead with exactly 3. -/
def conwayRule (live : Bool) (n : Int) : Bool :=
  (live && decide (n = 2 ∨ n = 3)) || (!live && decide (n = 3))

/-- One generation of a field under `conwayRule`. -/
def conwayField (f : List (List Bool)) (R C : Nat) : List (List Bool) :=
  (List.range R).map fun (r : Nat) =>
    (List.range C).map fun (c : Nat) =>
      conwayRule (alive f (c : Int) (r : Int)) (livingNeighbors f (c : Int) (r : Int))

/-- A non-empty field all of whose rows have the same length. -/
def rectangular (sc : screen) : Prop :=
  sc.Field ≠ [] ∧ ∀ row ∈ sc.Field, ∀ row0 ∈ sc.Field, row.length = row0.length

instance (sc : screen) : Decidable (rectangular sc) := by
  unfold rectangular; infer_instance

/-- Closed form of the grid returned by `nextGen` on a grid that satisfies the
grid invariant. -/
def step (sc : screen) : screen :=
  { RowsCount := sc.RowsCount
    ColsCount := sc.ColsCount
    Field := nextField sc.Field sc.RowsCount.toNat sc.ColsCount.toNat }

/-- Whether `(x, y)` lies inside an `R` by `C` grid and is one of the listed
cells: the closed form of `alive` on `gridWith R C cells`. -/
def aliveCells (R C : Nat) (cells : List (Nat × Nat)) (x y : Int) : Bool :=
  decide (0 ≤ x) && decide (0 ≤ y) && decide (x < C) && decide (y < R) &&
    decide ((x.toNat, y.toNat) ∈ cells)

/-- Closed form of `livingNeighbors` on `gridWith R C cells`. -/
def neighborsCells (R C : Nat) (cells : List (Nat × Nat)) (x y : Int) : Int :=
  ((mooreOffsets.filter fun d => aliveCells R C cells (x + d.1) (y + d.2)).length : Int)

/-- Closed form of `nextState` on `gridWith R C cells`. -/
def nextStateCells (R C : Nat) (cells : List (Nat × Nat)) (x y : Int) : Bool :=
  decide (neighborsCells R C cells x y = 2 ∨ neighborsCells R C cells x y = 3)

/-- Every listed cell has `x < w` and `y < h`. -/
def inBox (cells : List (Nat × Nat)) (w h : Nat) : Bool :=
  cells.all fun p => decide (p.1 < w) && decide (p.2 < h)

/-- On the window `x < w`, `y < h` the next state that `nextGen` computes from
`cells` is membership of `cells1`. -/
def windowOk (R C : Nat) (cells cells1 : List (Nat × Nat)) (w h : Nat) : Bool :=
  (List.range h).all fun (r : Nat) =>
    (List.range w).all fun (c : Nat) =>
      nextStateCells R C cells (c : Int) (r : Int) == decide ((c, r) ∈ cells1)

/-- On the window `x < w`, `y < h` the next state under `conwayRule` computed
from `cells` is membership of `cells1`. -/
def conwayWindowOk (R C : Nat) (cells cells1 : List (Nat × Nat)) (w h : Nat) : Bool :=
  (List.range h).all fun (r : Nat) =>
    (List.range w).all fun (c : Nat) =>
      conwayRule (aliveCells R C cells (c : Int) (r : Int))
        (neighborsCells R C cells (c : Int) (r : Int)) == decide ((c, r) ∈ cells1)

/-- One generation of a grid under `conwayRule`. -/
def conwayStep (sc : screen) : screen :=
  { RowsCount := sc.RowsCount
    ColsCount := sc.ColsCount
    Field := conwayField sc.Field sc.RowsCount.toNat sc.ColsCount.toNat }

/-- The grid of `R` rows and `C` columns in which every cell is alive. -/
def fullGrid (R C : Nat) : screen :=
  { RowsCount := R
    ColsCount := C
    Field := List.replicate R (List.replicate C true) }

/-- Go `(sc *screen) rendering()`: the text written to standard output, one line
per row of the field. -/
def rendering (sc : screen) : String :=
  String.join (sc.Field.map fun row =>
    String.join (row.map fun col => if col == true then "■" else "□") ++ "\n")

/-- How a bounded run of the loop of `gameStart` ends: still in the loop with a
current grid, returned with an error, or stopped by a panic. -/
inductive GameResult
  | running (current : screen)
  | returned (err : GoError)
  | panicked (e : GoPanic)
  deriving DecidableEq

/-- Go `gameStart(sc)` run for at most `n` passes of its `for` loop: the frames
written by `sc.rendering()` and how the run ends. The wait `<-t` for the next
tick of the timer only delays a pass and is left out. -/
def gameStart : Nat → screen → List String × GameResult
  | 0, sc => ([], .running sc)
  | n + 1, sc =>
    match nextGen sc with
    | .error e => ([rendering sc], .panicked e)
    | .ok (.error err) => ([rendering sc], .returned err)
    | .ok (.ok next) => (rendering sc :: (gameStart n next).1, (gameStart n next).2)

/-- The cells of `honeycombPattern` that are alive, placed at offset `(x, y)`. -/
def honeycombCells (x y : Nat) : List (Nat × Nat) :=
  [(x + 2, y), (x + 3, y), (x, y + 1), (x + 5, y + 1), (x, y + 2), (x + 5, y + 2),
    (x + 2, y + 3), (x + 3, y + 3)]

/-- The entries that `init` puts into `patternMap`. -/
def patternMap : List (String × List (List Bool)) :=
  [("glider", gliderPattern), ("block", blockPattern), ("honeycomb", honeycombPattern)]

/-- The heap behind the slices of the program: `outers` holds the backing arrays
of the `[][]bool` values (each element is the address of a row array, or nil),
`rows` holds the backing arrays of the `[]bool` rows. An address is a position
in the list, and `make` appends a new array. -/
structure Heap where
  outers : List (List (Option Nat))
  rows : List (List Bool)
  deriving DecidableEq

/-- A `screen` in the heap: `Field` is the address of its outer backing array. -/
structure screenRef where
  RowsCount : Int
  ColsCount : Int
  Field : Nat
  deriving DecidableEq

/-- The backing array of the `[][]bool` at address `o` (empty when there is none). -/
def Heap.outerAt (h : Heap) (o : Nat) : List (Option Nat) :=
  (h.outers[o]?).getD []

/-- The `[]bool` behind a row header; a nil header is the empty slice. -/
def Heap.rowAt (h : Heap) : Option Nat → List Bool
  | none => []
  | some a => (h.rows[a]?).getD []

/-- The grid that a `screenRef` denotes in a heap. -/
def Heap.view (h : Heap) (s : screenRef) : screen :=
  { RowsCount := s.RowsCount
    ColsCount := s.ColsCount
    Field := (h.outerAt s.Field).map h.rowAt }

/-- Every array that `s` refers to exists in the heap. -/
def wfRef (h : Heap) (s : screenRef) : Bool :=
  decide (s.Field < h.outers.length) &&
    (h.outerAt s.Field).all fun hdr =>
      match hdr with
      | none => true
      | some a => decide (a < h.rows.length)

/-- The loop `for i := range rows { cols := make([]bool, colSize); rows[i] = cols }`
of `newScreen` on the outer array at address `o`, from index `i` with `n` passes
left. -/
def newScreenRows (o colSize : Nat) : Nat → Nat → Heap → Except GoPanic Heap
  | _, 0, h => .ok h
  | i, n + 1, h =>
    let cols := h.rows.length
    let h1 : Heap := { h with rows := h.rows ++ [List.replicate colSize false] }
    match assign (h1.outerAt o) (i : Int) (some cols) with
    | .error e => .error e
    | .ok arr => newScreenRows o colSize (i + 1) n { h1 with outers := h1.outers.set o arr }

/-- Go `newScreen(colSize, rowSize)` on the heap: both `make` calls allocate. -/
def newScreenRef (colSize rowSize : Int) (h : Heap) :
    Except GoPanic (Except GoError screenRef × Heap) :=
  if colSize ≤ 0 then .ok (.error .colSize, h)
  else if rowSize ≤ 0 then .ok (.error .rowSize, h)
  else
    let rows := h.outers.length
    let h1 : Heap := { h with outers := h.outers ++ [List.replicate rowSize.toNat none] }
    match newScreenRows rows colSize.toNat 0 rowSize.toNat h1 with
    | .error e => .error e
    | .ok h2 => .ok (.ok { RowsCount := rowSize, ColsCount := colSize, Field := rows }, h2)

/-- The assignment `next.Field[y][x] = v` on the heap, `o` the address of the
outer array of `next.Field`: the header `next.Field[y]` is read, then element `x`
of the row array behind it is written. -/
def writeCell (h : Heap) (o : Nat) (y x : Int) (v : Bool) : Except GoPanic Heap :=
  match index (h.outerAt o) y with
  | .error e => .error e
  | .ok none => .error .indexOutOfRange
  | .ok (some a) =>
    match assign (h.rowAt (some a)) x v with
    | .error e => .error e
    | .ok row1 => .ok { h with rows := h.rows.set a row1 }

/-- Inner loop of `nextGen` on the heap, from column `x` with `n` passes left;
`sc.nextCellState(x, y)` reads the grid that `sc` denotes in the current heap. -/
def nextGenRowRef (sc next : screenRef) (y : Int) : Nat → Nat → Heap → Except GoPanic Heap
  | _, 0, h => .ok h
  | x, n + 1, h =>
    match nextCellState (h.view sc) (x : Int) y with
    | .error e => .error e
    | .ok v =>
      match writeCell h next.Field y (x : Int) v with
      | .error e => .error e
      | .ok h1 => nextGenRowRef sc next y (x + 1) n h1

/-- Outer loop of `nextGen` on the heap, from row `y` with `n` passes left; the
inner `range rows` runs over the row `sc.Field[y]` as it is at that pass. -/
def nextGenRowsRef (sc next : screenRef) : Nat → Nat → Heap → Except GoPanic Heap
  | _, 0, h => .ok h
  | y, n + 1, h =>
    match nextGenRowRef sc next (y : Int) 0 (h.rowAt (((h.outerAt sc.Field)[y]?).getD none)).length h with
    | .error e => .error e
    | .ok h1 => nextGenRowsRef sc next (y + 1) n h1

/-- Go `(sc *screen) nextGen()` on the heap: the result and the heap afterwards. -/
def nextGenRef (sc : screenRef) (h : Heap) :
    Except GoPanic (Except GoError screenRef × Heap) :=
  match newScreenRef sc.ColsCount sc.RowsCount h with
  | .error e => .error e
  | .ok (.error err, h1) => .ok (.error err, h1)
  | .ok (.ok next, h1) =>
    match nextGenRowsRef sc next 0 (h1.outerAt sc.Field).length h1 with
    | .error e => .error e
    | .ok h2 => .ok (.ok next, h2)

/-- The heap `h` after `newScreen` made an outer array of `R` headers and the `R`
rows `nf` behind them. -/
def Heap.extend (h : Heap) (R : Nat) (nf : List (List Bool)) : Heap :=
  { outers := h.outers ++ [(List.range R).map fun i => some (h.rows.length + i)]
    rows := h.rows ++ nf }

/-!
## Theorems
-/

theorem shape_put {f : List (List Bool)} {R C : Nat} (h : shape f R C) (r c : Nat) (v : Bool) :
    shape (put f r c v) R C := by
  obtain ⟨hl, hr⟩ := h
  refine ⟨by simp [put, hl], ?_⟩
  intro row hrow
  by_cases hlt : r < f.length
  · rcases List.mem_or_eq_of_mem_set hrow with h1 | h1
    · exact hr row h1
    · subst h1
      rw [List.length_set, List.getElem?_eq_getElem hlt]
      exact hr _ (List.getElem_mem _)
  · unfold put at hrow
    rw [List.set_eq_of_length_le (by omega)] at hrow
    exact hr row hrow

theorem get2_put {f : List (List Bool)} {R C : Nat} (h : shape f R C) {r c : Nat}
    (hr : r < R) (hc : c < C) (v : Bool) (r1 c1 : Nat) :
    get2 (put f r c v) r1 c1 = if r1 = r ∧ c1 = c then some v else get2 f r1 c1 := by
  obtain ⟨hl, hrows⟩ := h
  have hrl : r < f.length := by omega
  have hfr : f[r]? = some f[r] := List.getElem?_eq_getElem hrl
  have hlen : (f[r]).length = C := hrows _ (List.getElem_mem _)
  unfold get2 put
  rw [List.getElem?_set]
  by_cases h1 : r = r1
  · subst h1
    simp only [hrl, if_true, hfr, Option.getD_some, true_and]
    rw [List.getElem?_set]
    by_cases h2 : c = c1
    · subst h2; simp [hlen, hc]
    · have h3 : ¬ (c1 = c) := fun h => h2 h.symm
      simp [h2, h3]
  · have : ¬ (r1 = r) := fun h => h1 h.symm
    simp [h1, this]

theorem get2_lt {f : List (List Bool)} {R C : Nat} (h : shape f R C) {r c : Nat}
    (hr : r < R) (hc : c < C) : ∃ b, get2 f r c = some b := by
  obtain ⟨hl, hrows⟩ := h
  have hrl : r < f.length := by omega
  have hlen : (f[r]).length = C := hrows _ (List.getElem_mem _)
  refine ⟨(f[r])[c], ?_⟩
  simp [get2, List.getElem?_eq_getElem hrl, List.getElem?_eq_getElem (hlen ▸ hc)]

theorem get2_ge {f : List (List Bool)} {R C : Nat} (h : shape f R C) {r c : Nat}
    (hrc : R ≤ r ∨ C ≤ c) : get2 f r c = none := by
  obtain ⟨hl, hrows⟩ := h
  unfold get2
  cases hf : f[r]? with
  | none => rfl
  | some row =>
    have hm := hrows row (List.getElem?_mem hf)
    have hrl : r < f.length := by
      by_contra hc
      rw [List.getElem?_eq_none (by omega)] at hf
      cases hf
    simp only
    rw [List.getElem?_eq_none_iff]
    omega

theorem index_ok {α : Type} {s : List α} {i : Int} (h0 : 0 ≤ i) (h1 : i.toNat < s.length) :
    index s i = .ok (s.get ⟨i.toNat, h1⟩) := by
  unfold index
  rw [if_neg (by omega), List.getElem?_eq_getElem h1]
  rfl

theorem index_lt {α : Type} {s : List α} {i : Int} {a : α} (h : index s i = .ok a) :
    0 ≤ i ∧ i.toNat < s.length ∧ s[i.toNat]? = some a := by
  unfold index at h
  split at h
  · cases h
  · split at h
    · rename_i b hb
      cases h
      exact ⟨by omega, (List.getElem?_eq_some_iff.mp hb).1, hb⟩
    · cases h

theorem assign2_eq {f : List (List Bool)} {R C : Nat} (h : shape f R C) {r c : Int}
    (hr0 : 0 ≤ r) (hr : r < R) (hc0 : 0 ≤ c) (hc : c < C) (v : Bool) :
    assign2 f r c v = .ok (put f r.toNat c.toNat v) := by
  obtain ⟨hl, hrows⟩ := h
  have hrl : r.toNat < f.length := by omega
  have hlen : (f[r.toNat]).length = C := hrows _ (List.getElem_mem _)
  unfold assign2
  rw [index_ok hr0 hrl]
  simp only [assign, put, List.get_eq_getElem]
  rw [if_neg (by omega), if_pos (by omega)]
  simp only
  rw [if_neg (by omega), if_pos hrl, List.getElem?_eq_getElem hrl]
  rfl

theorem readCell_eq (f : List (List Bool)) {x y : Int} (hx : 0 ≤ x) (hy : 0 ≤ y) :
    readCell f x y = match get2 f y.toNat x.toNat with
      | some b => .ok b
      | none => .error .indexOutOfRange := by
  unfold readCell index get2
  rw [if_neg (by omega)]
  cases f[y.toNat]? with
  | none => rfl
  | some row =>
    simp only
    rw [if_neg (by omega)]
    cases row[x.toNat]? <;> rfl

theorem isSafeIdx_eq {sc : screen} {R C : Nat} (h : shape sc.Field R C) (hR : 0 < R)
    (x y : Int) :
    isSafeIdx sc x y = .ok (decide (0 ≤ x ∧ x < C ∧ 0 ≤ y ∧ y < R)) := by
  obtain ⟨hl, hrows⟩ := h
  have h0 : (0 : Int).toNat < sc.Field.length := by simp; omega
  have hlen : (sc.Field.get ⟨(0 : Int).toNat, h0⟩).length = C := hrows _ (List.get_mem _ _ _)
  unfold isSafeIdx
  rw [index_ok (le_refl 0) h0]
  simp only [hlen, hl]
  by_cases h1 : x < 0 ∨ y < 0
  · rw [if_pos h1]; congr 1; symm; rw [decide_eq_false_iff_not]; omega
  · rw [if_neg h1]
    by_cases h2 : (R : Int) ≤ y ∨ (C : Int) ≤ x
    · rw [if_pos h2]; congr 1; symm; rw [decide_eq_false_iff_not]; omega
    · rw [if_neg h2]; congr 1; symm; rw [decide_eq_true_iff]; omega

theorem livingAt_eq {sc : screen} {R C : Nat} (h : shape sc.Field R C) (hR : 0 < R)
    (x y : Int) : livingAt sc x y = .ok (alive sc.Field x y) := by
  unfold livingAt
  rw [isSafeIdx_eq h hR]
  by_cases hin : 0 ≤ x ∧ x < C ∧ 0 ≤ y ∧ y < R
  · rw [decide_eq_true hin]
    simp only
    have hrd := readCell_eq sc.Field hin.1 hin.2.2.1
    obtain ⟨b, hb⟩ := get2_lt h (r := y.toNat) (c := x.toNat) (by omega) (by omega)
    rw [hb] at hrd
    unfold readCell at hrd
    cases hi : index sc.Field y with
    | error e => rw [hi] at hrd; cases hrd
    | ok row =>
      rw [hi] at hrd
      simp only at hrd ⊢
      rw [hrd]
      simp [alive, hb, hin.1, hin.2.2.1]
  · rw [decide_eq_false hin]
    simp only
    congr 1
    symm
    unfold alive
    by_cases hx : 0 ≤ x
    · by_cases hy : 0 ≤ y
      · rw [get2_ge h (by omega)]; simp
      · simp [hy]
    · simp [hx]

theorem incrIf_ok (b : Bool) (n : Int) :
    incrIf (.ok b) n = .ok (n + if b = true then 1 else 0) := by
  cases b <;> simp [incrIf]

theorem livingNeighbors_eq (f : List (List Bool)) (x y : Int) :
    livingNeighbors f x y =
      (if alive f (x - 1) (y - 1) = true then 1 else 0)
      + (if alive f x (y - 1) = true then 1 else 0)
      + (if alive f (x + 1) (y - 1) = true then 1 else 0)
      + (if alive f (x - 1) y = true then 1 else 0)
      + (if alive f (x + 1) y = true then 1 else 0)
      + (if alive f (x - 1) (y + 1) = true then 1 else 0)
      + (if alive f x (y + 1) = true then 1 else 0)
      + (if alive f (x + 1) (y + 1) = true then 1 else 0) := by
  unfold livingNeighbors mooreOffsets
  rw [← List.countP_eq_length_filter]
  simp only [List.countP_cons, List.countP_nil, Int.add_neg_one, add_zero]
  simp only [add_zero, zero_add]
  push_cast
  ring_nf

theorem livingNeighbors_range (f : List (List Bool)) (x y : Int) :
    0 ≤ livingNeighbors f x y ∧ livingNeighbors f x y ≤ 8 := by
  unfold livingNeighbors
  have h := List.length_filter_le (fun d : Int × Int => alive f (x + d.1) (y + d.2)) mooreOffsets
  have h8 : mooreOffsets.length = 8 := rfl
  omega

theorem countLivingNeighbor_eq {sc : screen} {R C : Nat} (h : shape sc.Field R C)
    (hR : 0 < R) (x y : Int) :
    countLivingNeighbor sc x y = .ok (livingNeighbors sc.Field x y) := by
  unfold countLivingNeighbor
  simp only [livingAt_eq h hR, incrIf_ok, bind, Except.bind, pure, Except.pure]
  rw [livingNeighbors_eq]
  congr 1
  ring

theorem nextCellStateOf_eq (n : Int) : nextCellStateOf n = .ok (decide (n = 2 ∨ n = 3)) := by
  unfold nextCellStateOf
  by_cases h3 : n = 3
  · simp [h3]
  · rw [if_neg h3]
    by_cases h2 : n = 2 ∨ n = 3
    · rw [if_pos h2, decide_eq_true h2]
    · rw [if_neg h2, decide_eq_false h2]
      by_cases h1 : n ≤ 1
      · rw [if_pos h1]
      · rw [if_neg h1, if_pos (by omega)]

theorem nextCellState_eq {sc : screen} {R C : Nat} (h : shape sc.Field R C)
    (hR : 0 < R) (x y : Int) :
    nextCellState sc x y = .ok (nextState sc.Field x y) := by
  unfold nextCellState
  rw [countLivingNeighbor_eq h hR]
  simp only
  rw [nextCellStateOf_eq]
  rfl

theorem get2_eq_getElem {f : List (List Bool)} {r c : Nat} (hr : r < f.length)
    (hc : c < (f[r]).length) : get2 f r c = some ((f[r])[c]) := by
  simp [get2, List.getElem?_eq_getElem hr, List.getElem?_eq_getElem hc]

theorem shape_ext {f g : List (List Bool)} {R C : Nat} (hf : shape f R C) (hg : shape g R C)
    (h : ∀ r c, r < R → c < C → get2 f r c = get2 g r c) : f = g := by
  obtain ⟨hfl, hfr⟩ := hf
  obtain ⟨hgl, hgr⟩ := hg
  apply List.ext_getElem (by omega)
  intro r h1 h2
  have e1 : (f[r]).length = C := hfr _ (List.getElem_mem _)
  have e2 : (g[r]).length = C := hgr _ (List.getElem_mem _)
  apply List.ext_getElem (by omega)
  intro c h3 h4
  have := h r c (by omega) (by omega)
  rw [get2_eq_getElem h1 h3, get2_eq_getElem h2 h4] at this
  exact Option.some.inj this

theorem shape_nextField (f : List (List Bool)) (R C : Nat) : shape (nextField f R C) R C := by
  refine ⟨by simp [nextField], ?_⟩
  intro row hrow
  simp only [nextField, List.mem_map] at hrow
  obtain ⟨r, _, rfl⟩ := hrow
  simp

theorem get2_nextField (f : List (List Bool)) {R C r c : Nat} (hr : r < R) (hc : c < C) :
    get2 (nextField f R C) r c = some (nextState f (c : Int) (r : Int)) := by
  simp [get2, nextField, List.getElem?_map, List.getElem?_range, hr, hc]

theorem nextGenRow_spec {sc : screen} {R C : Nat} (h : shape sc.Field R C) (hR : 0 < R)
    {y : Nat} (hy : y < R) :
    ∀ (rest : List Bool) (x0 : Nat) (f : List (List Bool)), shape f R C →
      x0 + rest.length ≤ C →
      ∃ f1, nextGenRow sc (y : Int) x0 rest f = .ok f1 ∧ shape f1 R C ∧
        ∀ r c, get2 f1 r c =
          if r = y ∧ x0 ≤ c ∧ c < x0 + rest.length then some (nextState sc.Field (c : Int) (y : Int))
          else get2 f r c := by
  intro rest
  induction rest with
  | nil =>
    intro x0 f hf _
    refine ⟨f, rfl, hf, ?_⟩
    intro r c
    rw [if_neg]
    simp
  | cons b rest ih =>
    intro x0 f hf hlen
    simp only [List.length_cons] at hlen
    unfold nextGenRow
    rw [nextCellState_eq h hR]
    simp only
    rw [assign2_eq hf (by omega) (by omega) (by omega) (by omega)]
    simp only [Int.toNat_ofNat]
    obtain ⟨f1, e1, s1, g1⟩ := ih (x0 + 1) (put f y x0 (nextState sc.Field (x0 : Int) (y : Int)))
      (shape_put hf _ _ _) (by omega)
    refine ⟨f1, e1, s1, ?_⟩
    intro r c
    rw [g1, get2_put hf hy (by omega)]
    simp only [List.length_cons]
    by_cases hrc : r = y ∧ c = x0
    · obtain ⟨rfl, rfl⟩ := hrc
      rw [if_neg (by omega), if_pos ⟨rfl, rfl⟩, if_pos (by omega)]
    · rw [if_neg hrc]
      by_cases h2 : r = y ∧ x0 + 1 ≤ c ∧ c < x0 + 1 + rest.length
      · rw [if_pos h2, if_pos (by omega)]
      · rw [if_neg h2, if_neg (by omega)]

theorem nextGenRows_spec {sc : screen} {R C : Nat} (h : shape sc.Field R C) (hR : 0 < R) :
    ∀ (rows : List (List Bool)) (y0 : Nat) (f : List (List Bool)), shape f R C →
      (∀ row ∈ rows, row.length = C) → y0 + rows.length ≤ R →
      ∃ f1, nextGenRows sc y0 rows f = .ok f1 ∧ shape f1 R C ∧
        ∀ r c, get2 f1 r c =
          if y0 ≤ r ∧ r < y0 + rows.length ∧ c < C then some (nextState sc.Field (c : Int) (r : Int))
          else get2 f r c := by
  intro rows
  induction rows with
  | nil =>
    intro y0 f hf _ _
    refine ⟨f, rfl, hf, ?_⟩
    intro r c
    rw [if_neg]
    simp only [List.length_nil]
    omega
  | cons row rows ih =>
    intro y0 f hf hrows hlen
    simp only [List.length_cons] at hlen
    unfold nextGenRows
    obtain ⟨f1, e1, s1, g1⟩ := nextGenRow_spec h hR (y := y0) (by omega) row 0 f hf
      (by have := hrows row (List.mem_cons_self _ _); omega)
    rw [e1]
    simp only
    obtain ⟨f2, e2, s2, g2⟩ := ih (y0 + 1) f1 s1
      (fun r hr => hrows r (List.mem_cons_of_mem _ hr)) (by omega)
    refine ⟨f2, e2, s2, ?_⟩
    intro r c
    rw [g2, g1]
    have hrl := hrows row (List.mem_cons_self _ _)
    simp only [List.length_cons, hrl]
    by_cases h1 : y0 + 1 ≤ r ∧ r < y0 + 1 + rows.length ∧ c < C
    · rw [if_pos h1, if_pos (by omega)]
    · rw [if_neg h1]
      by_cases h2 : r = y0 ∧ 0 ≤ c ∧ c < 0 + C
      · rw [if_pos h2, if_pos (by omega)]
        obtain ⟨rfl, _⟩ := h2
        rfl
      · rw [if_neg h2, if_neg (by omega)]

theorem valid_shape {sc : screen} (h : valid sc) :
    shape sc.Field sc.RowsCount.toNat sc.ColsCount.toNat ∧ 0 < sc.RowsCount.toNat ∧
      0 < sc.ColsCount.toNat := by
  obtain ⟨h1, h2, h3, h4⟩ := h
  refine ⟨⟨by omega, ?_⟩, by omega, by omega⟩
  intro row hrow
  have := h4 row hrow
  omega

theorem shape_newField (R C : Nat) :
    shape ((List.replicate R ([] : List Bool)).map (fun _ => List.replicate C false)) R C := by
  refine ⟨by simp, ?_⟩
  intro row hrow
  simp only [List.mem_map] at hrow
  obtain ⟨_, _, rfl⟩ := hrow
  simp

theorem nextGen_eq {sc : screen} (h : valid sc) :
    nextGen sc = .ok (.ok (step sc)) := by
  obtain ⟨hs, hR, hC⟩ := valid_shape h
  obtain ⟨h1, h2, _, _⟩ := h
  unfold nextGen newScreen
  rw [if_neg (by omega), if_neg (by omega)]
  simp only
  obtain ⟨f1, e1, s1, g1⟩ := nextGenRows_spec hs hR sc.Field 0 _
    (shape_newField sc.RowsCount.toNat sc.ColsCount.toNat) hs.2 (by have := hs.1; omega)
  rw [e1]
  simp only
  congr 3
  apply shape_ext s1 (shape_nextField _ _ _)
  intro r c hr hc
  rw [g1, get2_nextField _ hr hc, if_pos (by have := hs.1; omega)]

theorem setPatternRow_spec {R C : Nat} (i xn yn : Nat) (hi : i + yn < R) :
    ∀ (rest : List Bool) (k0 : Nat) (f : List (List Bool)), shape f R C →
      k0 + xn + rest.length ≤ C →
      ∃ f1, setPatternRow (i : Int) (xn : Int) (yn : Int) k0 rest f = .ok f1 ∧ shape f1 R C ∧
        ∀ r c, get2 f1 r c =
          if r = i + yn ∧ k0 + xn ≤ c ∧ c < k0 + xn + rest.length then rest[c - (k0 + xn)]?
          else get2 f r c := by
  intro rest
  induction rest with
  | nil =>
    intro k0 f hf _
    refine ⟨f, rfl, hf, ?_⟩
    intro r c
    rw [if_neg]
    simp only [List.length_nil]
    omega
  | cons b rest ih =>
    intro k0 f hf hlen
    simp only [List.length_cons] at hlen
    unfold setPatternRow
    rw [assign2_eq hf (by omega) (by omega) (by omega) (by omega)]
    simp only
    have e1 : ((i : Int) + (yn : Int)).toNat = i + yn := by omega
    have e2 : ((k0 : Int) + (xn : Int)).toNat = k0 + xn := by omega
    rw [e1, e2]
    obtain ⟨f1, h1, s1, g1⟩ := ih (k0 + 1) (put f (i + yn) (k0 + xn) b)
      (shape_put hf _ _ _) (by omega)
    refine ⟨f1, h1, s1, ?_⟩
    intro r c
    rw [g1, get2_put hf hi (by omega)]
    simp only [List.length_cons]
    by_cases hrc : r = i + yn ∧ c = k0 + xn
    · obtain ⟨rfl, rfl⟩ := hrc
      rw [if_neg (by omega), if_pos ⟨rfl, rfl⟩, if_pos (by omega)]
      simp
    · rw [if_neg hrc]
      by_cases h2 : r = i + yn ∧ k0 + 1 + xn ≤ c ∧ c < k0 + 1 + xn + rest.length
      · rw [if_pos h2, if_pos (by omega)]
        have e3 : c - (k0 + xn) = (c - (k0 + 1 + xn)) + 1 := by omega
        rw [e3, List.getElem?_cons_succ]
      · rw [if_neg h2, if_neg (by omega)]

theorem setPatternRows_spec {R C : Nat} (xn yn pc : Nat) (hpc : xn + pc ≤ C) :
    ∀ (rows : List (List Bool)) (i0 : Nat) (f : List (List Bool)), shape f R C →
      (∀ row ∈ rows, row.length = pc) → i0 + yn + rows.length ≤ R →
      ∃ f1, setPatternRows (xn : Int) (yn : Int) i0 rows f = .ok f1 ∧ shape f1 R C ∧
        ∀ r c, get2 f1 r c =
          if i0 + yn ≤ r ∧ r < i0 + yn + rows.length ∧ xn ≤ c ∧ c < xn + pc then
            get2 rows (r - (i0 + yn)) (c - xn)
          else get2 f r c := by
  intro rows
  induction rows with
  | nil =>
    intro i0 f hf _ _
    refine ⟨f, rfl, hf, ?_⟩
    intro r c
    rw [if_neg]
    simp only [List.length_nil]
    omega
  | cons row rows ih =>
    intro i0 f hf hrows hlen
    simp only [List.length_cons] at hlen
    have hrl := hrows row (List.mem_cons_self _ _)
    unfold setPatternRows
    obtain ⟨f1, e1, s1, g1⟩ := setPatternRow_spec (R := R) (C := C) i0 xn yn (by omega)
      row 0 f hf (by omega)
    rw [e1]
    simp only
    obtain ⟨f2, e2, s2, g2⟩ := ih (i0 + 1) f1 s1
      (fun r hr => hrows r (List.mem_cons_of_mem _ hr)) (by omega)
    refine ⟨f2, e2, s2, ?_⟩
    intro r c
    rw [g2, g1]
    simp only [List.length_cons, hrl]
    by_cases h1 : i0 + 1 + yn ≤ r ∧ r < i0 + 1 + yn + rows.length ∧ xn ≤ c ∧ c < xn + pc
    · rw [if_pos h1, if_pos (by omega)]
      have e3 : r - (i0 + yn) = (r - (i0 + 1 + yn)) + 1 := by omega
      rw [e3]
      simp [get2]
    · rw [if_neg h1]
      by_cases h2 : r = i0 + yn ∧ 0 + xn ≤ c ∧ c < 0 + xn + pc
      · rw [if_pos h2, if_pos (by omega)]
        obtain ⟨rfl, _⟩ := h2
        simp [get2]
      · rw [if_neg h2, if_neg (by omega)]

theorem checkPattern_fit {sc : screen} {R C : Nat} (hs : shape sc.Field R C) (hR : 0 < R)
    (pattern : List (List Bool)) (pc : Nat) (hne : 0 < pattern.length)
    (hrect : ∀ row ∈ pattern, row.length = pc) (x y : Int)
    (hr : (pattern.length : Int) ≤ R + y) (hc : (pc : Int) ≤ C + x) :
    checkPattern sc pattern x y = .ok none := by
  obtain ⟨hl, hrows⟩ := hs
  have h0 : (0 : Int).toNat < pattern.length := by simp; omega
  have h0f : (0 : Int).toNat < sc.Field.length := by simp; omega
  have hp0 : (pattern.get ⟨(0 : Int).toNat, h0⟩).length = pc := hrect _ (List.get_mem _ _ _)
  have hf0 : (sc.Field.get ⟨(0 : Int).toNat, h0f⟩).length = C := hrows _ (List.get_mem _ _ _)
  unfold checkPattern
  rw [if_neg (by omega), index_ok (le_refl 0) h0]
  simp only [hp0]
  have hany : (pattern.any fun cols => decide ((pc : Int) ≠ (cols.length : Int))) = false := by
    rw [List.any_eq_false]
    intro row hrow
    have := hrect row hrow
    simp [this]
  rw [hany]
  simp only [Bool.false_eq_true, if_false]
  rw [if_neg (by omega), index_ok (le_refl 0) h0f]
  simp only [hf0]
  rw [if_neg (by omega)]

theorem index_error {α : Type} {s : List α} {i : Int} {e : GoPanic}
    (h : index s i = .error e) : e = .indexOutOfRange := by
  unfold index at h
  split at h
  · cases h; rfl
  · split at h
    · cases h
    · cases h; rfl

theorem readCell_congr {f g : List (List Bool)} {a b : Int}
    (h : 0 ≤ a → 0 ≤ b → get2 f b.toNat a.toNat = get2 g b.toNat a.toNat) :
    readCell f a b = readCell g a b := by
  by_cases hb : 0 ≤ b
  · by_cases ha : 0 ≤ a
    · rw [readCell_eq f ha hb, readCell_eq g ha hb, h ha hb]
    · unfold readCell
      have hi : ∀ row : List Bool, index row a = .error .indexOutOfRange := by
        intro row; unfold index; rw [if_pos (by omega)]
      cases hf : index f b <;> cases hg : index g b <;> simp only [hi]
      · rw [index_error hf, index_error hg]
      · rw [index_error hf]
      · rw [index_error hg]
  · unfold readCell index
    rw [if_pos (by omega), if_pos (by omega)]

theorem valid_step {sc : screen} (h : valid sc) : valid (step sc) := by
  obtain ⟨h1, h2, _, _⟩ := h
  have hs := shape_nextField sc.Field sc.RowsCount.toNat sc.ColsCount.toNat
  refine ⟨h1, h2, ?_, ?_⟩
  · show ((nextField sc.Field sc.RowsCount.toNat sc.ColsCount.toNat).length : Int) = sc.RowsCount
    rw [hs.1]; omega
  · intro row hrow
    have := hs.2 row hrow
    show (row.length : Int) = sc.ColsCount
    omega

theorem nextGenN_eq {sc : screen} (h : valid sc) (n : Nat) :
    nextGenN n sc = .ok (.ok (step^[n] sc)) ∧ valid (step^[n] sc) := by
  induction n generalizing sc with
  | zero => exact ⟨rfl, h⟩
  | succ n ih =>
    unfold nextGenN
    rw [nextGen_eq h]
    simp only [Function.iterate_succ, Function.comp]
    exact ih (valid_step h)

theorem step_dims (sc : screen) (n : Nat) :
    (step^[n] sc).RowsCount = sc.RowsCount ∧ (step^[n] sc).ColsCount = sc.ColsCount := by
  induction n generalizing sc with
  | zero => exact ⟨rfl, rfl⟩
  | succ n ih =>
    simp only [Function.iterate_succ, Function.comp]
    exact ih (step sc)

theorem valid_gridWith (R C : Nat) (hR : 0 < R) (hC : 0 < C) (cells : List (Nat × Nat)) :
    valid (gridWith R C cells) := by
  refine ⟨by simp [gridWith]; omega, by simp [gridWith]; omega, by simp [gridWith], ?_⟩
  intro row hrow
  simp only [gridWith, List.mem_map] at hrow
  obtain ⟨r, _, rfl⟩ := hrow
  simp [gridWith]

theorem readCell_step {sc : screen} {x y : Int} (hx0 : 0 ≤ x) (hx : x < sc.ColsCount)
    (hy0 : 0 ≤ y) (hy : y < sc.RowsCount) :
    readCell (step sc).Field x y = .ok (nextState sc.Field x y) := by
  rw [readCell_eq _ hx0 hy0]
  show (match get2 (nextField sc.Field sc.RowsCount.toNat sc.ColsCount.toNat) y.toNat x.toNat with
      | some b => Except.ok b
      | none => Except.error GoPanic.indexOutOfRange) = _
  rw [get2_nextField _ (by omega) (by omega)]
  simp only [Int.toNat_of_nonneg hx0, Int.toNat_of_nonneg hy0]

set_option maxRecDepth 100000 in
theorem newScreen_main : newScreen FieldColSize FieldRowSize = .ok (gridWith 25 40 []) := by
  decide!


theorem isSafeIdx_error {sc : screen} {x y : Int} {e : GoPanic}
    (h : isSafeIdx sc x y = .error e) : e = .indexOutOfRange := by
  unfold isSafeIdx at h
  cases hi : index sc.Field 0 with
  | error e1 =>
    rw [hi] at h
    simp only at h
    cases h
    exact index_error hi
  | ok row0 =>
    rw [hi] at h
    simp only at h
    split at h
    · cases h
    · split at h <;> cases h

theorem livingAt_error {sc : screen} {x y : Int} {e : GoPanic}
    (h : livingAt sc x y = .error e) : e = .indexOutOfRange := by
  unfold livingAt at h
  cases hs : isSafeIdx sc x y with
  | error e1 =>
    rw [hs] at h
    simp only at h
    cases h
    exact isSafeIdx_error hs
  | ok b =>
    rw [hs] at h
    cases b with
    | false => simp only at h; cases h
    | true =>
      simp only at h
      cases hi : index sc.Field y with
      | error e1 =>
        rw [hi] at h
        simp only at h
        cases h
        exact index_error hi
      | ok row =>
        rw [hi] at h
        simp only at h
        cases hj : index row x with
        | error e1 =>
          rw [hj] at h
          simp only at h
          cases h
          exact index_error hj
        | ok c => rw [hj] at h; simp only at h; cases h

theorem incrIf_error {c : Except GoPanic Bool} {n : Int} {e : GoPanic}
    (h : incrIf c n = .error e) : c = .error e := by
  unfold incrIf at h
  cases c with
  | error e1 => simp only at h; cases h; rfl
  | ok b => cases b <;> simp only at h <;> cases h

theorem bind_error {α β : Type} {m : Except GoPanic α} {f : α → Except GoPanic β} {e : GoPanic}
    (h : (m >>= f) = .error e) : m = .error e ∨ ∃ a, m = .ok a ∧ f a = .error e := by
  cases m with
  | error e1 => left; cases h; rfl
  | ok a => right; exact ⟨a, rfl, h⟩

theorem countLivingNeighbor_error {sc : screen} {x y : Int} {e : GoPanic}
    (h : countLivingNeighbor sc x y = .error e) : e = .indexOutOfRange := by
  unfold countLivingNeighbor at h
  rcases bind_error h with h | ⟨_, _, h⟩
  · exact livingAt_error (incrIf_error h)
  rcases bind_error h with h | ⟨_, _, h⟩
  · exact livingAt_error (incrIf_error h)
  rcases bind_error h with h | ⟨_, _, h⟩
  · exact livingAt_error (incrIf_error h)
  rcases bind_error h with h | ⟨_, _, h⟩
  · exact livingAt_error (incrIf_error h)
  rcases bind_error h with h | ⟨_, _, h⟩
  · exact livingAt_error (incrIf_error h)
  rcases bind_error h with h | ⟨_, _, h⟩
  · exact livingAt_error (incrIf_error h)
  rcases bind_error h with h | ⟨_, _, h⟩
  · exact livingAt_error (incrIf_error h)
  rcases bind_error h with h | ⟨_, _, h⟩
  · exact livingAt_error (incrIf_error h)
  cases h

/-- C1: `nextCellState(x, y)` is `true` exactly when `countLivingNeighbor(x, y)` is 2 or 3
(on every grid it is the image of the count under that test, so it panics only
where the count itself does); the decision chain returns a boolean for every
integer count, `false` for 0, 1 and 4..8, and the final
`panic("couldn't determine next status")` is never reached. -/
theorem nextCellState_two_or_three (sc : screen) (x y : Int) :
    nextCellState sc x y =
        (countLivingNeighbor sc x y).map (fun n => decide (n = 2 ∨ n = 3)) ∧
      (∀ n : Int, nextCellStateOf n = .ok (decide (n = 2 ∨ n = 3))) ∧
      nextCellStateOf 0 = .ok false ∧ nextCellStateOf 1 = .ok false ∧
      nextCellStateOf 2 = .ok true ∧ nextCellStateOf 3 = .ok true ∧
      nextCellStateOf 4 = .ok false ∧ nextCellStateOf 5 = .ok false ∧
      nextCellStateOf 6 = .ok false ∧ nextCellStateOf 7 = .ok false ∧
      nextCellStateOf 8 = .ok false ∧
      (∀ n : Int, nextCellStateOf n ≠ .error .nextStatus) ∧
      nextCellState sc x y ≠ .error .nextStatus := by
  have hmap : nextCellState sc x y =
      (countLivingNeighbor sc x y).map (fun n => decide (n = 2 ∨ n = 3)) := by
    unfold nextCellState
    cases countLivingNeighbor sc x y with
    | error e => rfl
    | ok n => simp only [nextCellStateOf_eq]; rfl
  refine ⟨hmap, nextCellStateOf_eq, by decide, by decide, by decide, by decide, by decide,
    by decide, by decide, by decide, by decide, ?_, ?_⟩
  · intro n hn
    rw [nextCellStateOf_eq] at hn
    cases hn
  · intro hn
    rw [hmap] at hn
    cases hc : countLivingNeighbor sc x y with
    | error e =>
      rw [hc] at hn
      have := countLivingNeighbor_error hc
      subst this
      cases hn
    | ok n => rw [hc] at hn; cases hn

/-- C2: on a grid that satisfies the grid invariant `nextGen` returns a nil error and
a grid with the same `RowsCount` and `ColsCount` whose cell `(x, y)` is
`sc.nextCellState(x, y)` computed on the old grid `sc`, for every in-bounds `(x, y)`. -/
theorem nextGen_cells (sc : screen) (h : valid sc) :
    ∃ next, nextGen sc = .ok (.ok next) ∧ next.RowsCount = sc.RowsCount ∧
      next.ColsCount = sc.ColsCount ∧
      ∀ x y : Int, 0 ≤ y → y < sc.RowsCount → 0 ≤ x → x < sc.ColsCount →
        ∃ b, readCell next.Field x y = .ok b ∧ nextCellState sc x y = .ok b := by
  obtain ⟨hs, hR, _⟩ := valid_shape h
  refine ⟨step sc, nextGen_eq h, rfl, rfl, ?_⟩
  intro x y hy0 hy hx0 hx
  exact ⟨nextState sc.Field x y, readCell_step hx0 hx hy0 hy, nextCellState_eq hs hR x y⟩

theorem nextGen_cells_witness :
    valid (gridWith 3 4 [(0, 0), (2, 0), (3, 2)]) ∧
      ∃ next, nextGen (gridWith 3 4 [(0, 0), (2, 0), (3, 2)]) = .ok (.ok next) ∧
        next.RowsCount = (gridWith 3 4 [(0, 0), (2, 0), (3, 2)]).RowsCount ∧
        next.ColsCount = (gridWith 3 4 [(0, 0), (2, 0), (3, 2)]).ColsCount ∧
        ∀ x y : Int, 0 ≤ y → y < (gridWith 3 4 [(0, 0), (2, 0), (3, 2)]).RowsCount →
          0 ≤ x → x < (gridWith 3 4 [(0, 0), (2, 0), (3, 2)]).ColsCount →
          ∃ b, readCell next.Field x y = .ok b ∧
            nextCellState (gridWith 3 4 [(0, 0), (2, 0), (3, 2)]) x y = .ok b :=
  ⟨by decide, nextGen_cells (gridWith 3 4 [(0, 0), (2, 0), (3, 2)]) (by decide)⟩

/-- C10 (as stated, fails): `newScreen(1, 2^62)` has positive sizes that are values
of Go `int`, and `make([][]bool, 2^62)` panics with `makeslice: len out of range`,
so no grid and no error are returned. -/
theorem newScreen_huge_panics :
    (0 : Int) < 1 ∧ (0 : Int) < 4611686018427387904 ∧
    (4611686018427387904 : Int) ≤ 9223372036854775807 ∧
    makeslice 24 4611686018427387904 = .error .makesliceLen ∧
    newScreenChecked 1 4611686018427387904 = .error .makesliceLen := by
  decide

/-- C10 (amended): for positive sizes, when both `make` calls are within the limit
(`colSize` bytes and `24 * rowSize` bytes are at most `maxAlloc`),
`newScreen(colSize, rowSize)` returns a nil error and a grid with
`RowsCount = rowSize`, `ColsCount = colSize`, `rowSize` rows of `colSize` cells
each, every cell dead; when one of them is beyond the limit the call panics. -/
theorem newScreen_all_dead (colSize rowSize : Int) (hc : 0 < colSize) (hr : 0 < rowSize) :
    ((colSize ≤ maxAlloc ∧ 24 * rowSize ≤ maxAlloc) →
      ∃ sc, newScreenChecked colSize rowSize = .ok (.ok sc) ∧
        newScreen colSize rowSize = .ok sc ∧ sc.RowsCount = rowSize ∧
        sc.ColsCount = colSize ∧ (sc.Field.length : Int) = rowSize ∧
        (∀ row ∈ sc.Field, (row.length : Int) = colSize) ∧
        ∀ row ∈ sc.Field, ∀ cell ∈ row, cell = false) ∧
    ((maxAlloc < colSize ∨ maxAlloc < 24 * rowSize) →
      newScreenChecked colSize rowSize = .error .makesliceLen) := by
  constructor
  · rintro ⟨hcb, hrb⟩
    unfold newScreenChecked newScreen makeslice
    rw [if_neg (by omega), if_neg (by omega), if_neg (by omega), if_neg (by omega)]
    simp only
    rw [if_neg (by omega), if_neg (by omega)]
    refine ⟨_, rfl, rfl, rfl, rfl, ?_, ?_, ?_⟩
    · simp only [List.length_map, List.length_replicate]; omega
    · intro row hrow
      simp only [List.mem_map] at hrow
      obtain ⟨_, _, rfl⟩ := hrow
      simp only [List.length_replicate]; omega
    · intro row hrow cell hcell
      simp only [List.mem_map] at hrow
      obtain ⟨_, _, rfl⟩ := hrow
      exact (List.mem_replicate.mp hcell).2
  · intro hbig
    unfold newScreenChecked makeslice
    rw [if_neg (by omega), if_neg (by omega)]
    by_cases hrb : maxAlloc < 24 * rowSize
    · rw [if_pos (Or.inr hrb)]
    · rw [if_neg (by omega)]
      simp only
      rw [if_pos (by omega)]

theorem newScreen_all_dead_witness :
    (0 : Int) < 40 ∧ (0 : Int) < 25 ∧ (40 : Int) ≤ maxAlloc ∧ (24 : Int) * 25 ≤ maxAlloc ∧
      ∃ sc, newScreenChecked 40 25 = .ok (.ok sc) ∧
        newScreen 40 25 = .ok sc ∧ sc.RowsCount = 25 ∧
        sc.ColsCount = 40 ∧ (sc.Field.length : Int) = 25 ∧
        (∀ row ∈ sc.Field, (row.length : Int) = 40) ∧
        ∀ row ∈ sc.Field, ∀ cell ∈ row, cell = false :=
  ⟨by decide, by decide, by decide, by decide,
    (newScreen_all_dead 40 25 (by decide) (by decide)).1 ⟨by decide, by decide⟩⟩

theorem rectangular_shape {sc : screen} (h : rectangular sc) :
    ∃ C, shape sc.Field sc.Field.length C ∧ 0 < sc.Field.length := by
  obtain ⟨hne, hrows⟩ := h
  cases hf : sc.Field with
  | nil => exact absurd hf hne
  | cons row0 rest =>
    rw [hf] at hrows
    exact ⟨row0.length, ⟨rfl, fun row hrow => hrows row hrow row0 (List.mem_cons_self _ _)⟩,
      by simp⟩

theorem alive_eq_decide {sc : screen} {R C : Nat} (h : shape sc.Field R C) (hR : 0 < R)
    (a b : Int) :
    alive sc.Field a b =
      decide (isSafeIdx sc a b = .ok true ∧ readCell sc.Field a b = .ok true) := by
  rw [isSafeIdx_eq h hR]
  by_cases hin : 0 ≤ a ∧ a < C ∧ 0 ≤ b ∧ b < R
  · obtain ⟨v, hv⟩ := get2_lt h (r := b.toNat) (c := a.toNat) (by omega) (by omega)
    rw [readCell_eq sc.Field hin.1 hin.2.2.1, hv, decide_eq_true hin]
    unfold alive
    rw [hv]
    cases v <;> simp [hin.1, hin.2.2.1]
  · rw [decide_eq_false hin]
    have hf : alive sc.Field a b = false := by
      unfold alive
      by_cases hx : 0 ≤ a
      · by_cases hy : 0 ≤ b
        · rw [get2_ge h (by omega)]; simp
        · simp [hy]
      · simp [hx]
    rw [hf]
    simp

/-- C3: on a rectangular non-empty grid, for all integers `x`, `y`,
`countLivingNeighbor(x, y)` returns the number of the eight Moore offsets
`(dx, dy)` for which `isSafeIdx(x+dx, y+dy)` is true and `Field[y+dy][x+dx]` is
live; `(0, 0)` is not among the offsets, off-grid neighbours add nothing, and the
result lies in `[0, 8]`. -/
theorem countLivingNeighbor_moore (sc : screen) (h : rectangular sc) (x y : Int) :
    mooreOffsets = [(-1, -1), (0, -1), (1, -1), (-1, 0), (1, 0), (-1, 1), (0, 1), (1, 1)] ∧
      ∃ n, countLivingNeighbor sc x y = .ok n ∧
        n = ((mooreOffsets.filter (fun d =>
              decide (isSafeIdx sc (x + d.1) (y + d.2) = .ok true ∧
                readCell sc.Field (x + d.1) (y + d.2) = .ok true))).length : Int) ∧
        0 ≤ n ∧ n ≤ 8 := by
  obtain ⟨C, hs, hR⟩ := rectangular_shape h
  refine ⟨rfl, livingNeighbors sc.Field x y, countLivingNeighbor_eq hs hR x y, ?_,
    (livingNeighbors_range _ _ _).1, (livingNeighbors_range _ _ _).2⟩
  unfold livingNeighbors
  have hfun : (fun d : Int × Int => alive sc.Field (x + d.1) (y + d.2)) =
      fun d => decide (isSafeIdx sc (x + d.1) (y + d.2) = .ok true ∧
        readCell sc.Field (x + d.1) (y + d.2) = .ok true) :=
    funext fun d => alive_eq_decide hs hR _ _
  rw [hfun]

theorem countLivingNeighbor_moore_witness :
    rectangular (gridWith 3 4 [(0, 0), (2, 0), (3, 2)]) ∧
      mooreOffsets = [(-1, -1), (0, -1), (1, -1), (-1, 0), (1, 0), (-1, 1), (0, 1), (1, 1)] ∧
      ∃ n, countLivingNeighbor (gridWith 3 4 [(0, 0), (2, 0), (3, 2)]) 1 0 = .ok n ∧
        n = ((mooreOffsets.filter (fun d =>
              decide (isSafeIdx (gridWith 3 4 [(0, 0), (2, 0), (3, 2)]) (1 + d.1) (0 + d.2)
                  = .ok true ∧
                readCell (gridWith 3 4 [(0, 0), (2, 0), (3, 2)]).Field (1 + d.1) (0 + d.2)
                  = .ok true))).length : Int) ∧
        0 ≤ n ∧ n ≤ 8 :=
  ⟨by decide, countLivingNeighbor_moore (gridWith 3 4 [(0, 0), (2, 0), (3, 2)]) (by decide) 1 0⟩


/-- C9: a pattern with zero rows, or with two rows of different lengths, makes
`setPattern` return a non-nil error and leaves the receiver as it was, whatever the
grid and the offsets are: the zero-row test comes first, the row-length test second,
both before the bounds test and before any write. -/
theorem setPattern_bad_shape (sc : screen) (pattern : List (List Bool)) (x y : Int)
    (h : pattern = [] ∨ ∃ r1 ∈ pattern, ∃ r2 ∈ pattern, r1.length ≠ r2.length) :
    (pattern = [] → setPattern sc pattern x y = .ok (sc, some .patternRowSize)) ∧
      (pattern ≠ [] → setPattern sc pattern x y = .ok (sc, some .patternColumnSize)) ∧
      ∃ err, setPattern sc pattern x y = .ok (sc, some err) ∧
        checkPattern sc pattern x y = .ok (some err) := by
  have h1 : pattern = [] → checkPattern sc pattern x y = .ok (some .patternRowSize) := by
    intro hp
    subst hp
    rfl
  have h2 : pattern ≠ [] → checkPattern sc pattern x y = .ok (some .patternColumnSize) := by
    intro hp
    rcases h with h | ⟨r1, hr1, r2, hr2, hne⟩
    · exact absurd h hp
    cases hpat : pattern with
    | nil => exact absurd hpat hp
    | cons first rest =>
      rw [hpat] at hr1 hr2
      unfold checkPattern
      rw [if_neg (by simp only [List.length_cons]; push_cast; omega)]
      have hi : index (first :: rest) 0 = .ok first := by
        unfold index
        simp
      rw [hi]
      simp only
      have hany : ((first :: rest).any
          fun cols => decide ((first.length : Int) ≠ (cols.length : Int))) = true := by
        rw [List.any_eq_true]
        by_cases hf : r1.length = first.length
        · exact ⟨r2, hr2, by rw [decide_eq_true_iff]; omega⟩
        · exact ⟨r1, hr1, by rw [decide_eq_true_iff]; omega⟩
      rw [hany]
      rfl
  have hset : ∀ err, checkPattern sc pattern x y = .ok (some err) →
      setPattern sc pattern x y = .ok (sc, some err) := by
    intro err he
    unfold setPattern
    rw [he]
  refine ⟨fun hp => hset _ (h1 hp), fun hp => hset _ (h2 hp), ?_⟩
  by_cases hp : pattern = []
  · exact ⟨_, hset _ (h1 hp), h1 hp⟩
  · exact ⟨_, hset _ (h2 hp), h2 hp⟩

theorem setPattern_bad_shape_witness :
    (([[true, true], [true]] : List (List Bool)) = [] ∨
        ∃ r1 ∈ ([[true, true], [true]] : List (List Bool)),
          ∃ r2 ∈ ([[true, true], [true]] : List (List Bool)), r1.length ≠ r2.length) ∧
      ((([[true, true], [true]] : List (List Bool)) = [] →
          setPattern (gridWith 25 40 []) [[true, true], [true]] 100 (-7)
            = .ok (gridWith 25 40 [], some .patternRowSize)) ∧
        (([[true, true], [true]] : List (List Bool)) ≠ [] →
          setPattern (gridWith 25 40 []) [[true, true], [true]] 100 (-7)
            = .ok (gridWith 25 40 [], some .patternColumnSize)) ∧
        ∃ err, setPattern (gridWith 25 40 []) [[true, true], [true]] 100 (-7)
            = .ok (gridWith 25 40 [], some err) ∧
          checkPattern (gridWith 25 40 []) [[true, true], [true]] 100 (-7) = .ok (some err)) :=
  ⟨by decide, setPattern_bad_shape (gridWith 25 40 []) [[true, true], [true]] 100 (-7)
    (by decide)⟩

/-- C8: on a grid that satisfies the grid invariant, a non-empty rectangular pattern of
`pattern.length` rows and `pc` columns placed at an offset `x >= 0`, `y >= 0` with
`y + rows <= RowsCount` and `x + pc <= ColsCount` makes `setPattern` return nil;
afterwards `Field[y+i][x+k] = pattern[i][k]` for every pattern cell (overwrite), every
cell outside the footprint reads as before, and `RowsCount`, `ColsCount` and the
grid invariant are unchanged. -/
theorem setPattern_frame (sc : screen) (pattern : List (List Bool)) (pc : Nat) (x y : Int)
    (hv : valid sc) (hne : 0 < pattern.length) (hrect : ∀ row ∈ pattern, row.length = pc)
    (hx : 0 ≤ x) (hy : 0 ≤ y) (hr : y + pattern.length ≤ sc.RowsCount)
    (hc : x + pc ≤ sc.ColsCount) :
    ∃ sc1, setPattern sc pattern x y = .ok (sc1, none) ∧
      sc1.RowsCount = sc.RowsCount ∧ sc1.ColsCount = sc.ColsCount ∧ valid sc1 ∧
      (∀ i k : Nat, i < pattern.length → k < pc →
        ∃ b, readCell pattern k i = .ok b ∧ readCell sc1.Field (x + k) (y + i) = .ok b) ∧
      (∀ a b : Int, ¬ (x ≤ a ∧ a < x + pc ∧ y ≤ b ∧ b < y + pattern.length) →
        readCell sc1.Field a b = readCell sc.Field a b) := by
  obtain ⟨hs, hR, hC⟩ := valid_shape hv
  obtain ⟨h1, h2, h3, h4⟩ := hv
  have hxe : x = (x.toNat : Int) := by omega
  have hye : y = (y.toNat : Int) := by omega
  have hcheck := checkPattern_fit hs hR pattern pc hne hrect x y (by omega) (by omega)
  obtain ⟨f1, e1, s1, g1⟩ := setPatternRows_spec (R := sc.RowsCount.toNat)
    (C := sc.ColsCount.toNat) x.toNat y.toNat pc (by omega) pattern 0 sc.Field hs hrect
    (by omega)
  rw [← hxe, ← hye] at e1
  refine ⟨{ sc with Field := f1 }, ?_, rfl, rfl, ?_, ?_, ?_⟩
  · unfold setPattern
    rw [hcheck]
    simp only
    rw [e1]
  · refine ⟨h1, h2, ?_, ?_⟩
    · show (f1.length : Int) = sc.RowsCount
      rw [s1.1]; omega
    · intro row hrow
      have := s1.2 row hrow
      show (row.length : Int) = sc.ColsCount
      omega
  · intro i k hi hk
    have hpat : shape pattern pattern.length pc := ⟨rfl, hrect⟩
    obtain ⟨b, hb⟩ := get2_lt hpat hi hk
    refine ⟨b, ?_, ?_⟩
    · rw [readCell_eq pattern (by omega) (by omega)]
      simp only [Int.toNat_ofNat, hb]
    · rw [readCell_eq _ (by omega) (by omega)]
      show (match get2 f1 (y + (i : Int)).toNat (x + (k : Int)).toNat with
        | some b => Except.ok b
        | none => Except.error GoPanic.indexOutOfRange) = _
      rw [g1, if_pos (by omega)]
      have e3 : (y + (i : Int)).toNat - (0 + y.toNat) = i := by omega
      have e4 : (x + (k : Int)).toNat - x.toNat = k := by omega
      rw [e3, e4, hb]
  · intro a b hout
    apply readCell_congr
    intro ha hb
    show get2 f1 b.toNat a.toNat = get2 sc.Field b.toNat a.toNat
    rw [g1, if_neg (by omega)]

theorem setPattern_frame_witness :
    valid (gridWith 5 6 [(1, 1), (2, 2)]) ∧ 0 < blockPattern.length ∧
      (∀ row ∈ blockPattern, row.length = 2) ∧ (0 : Int) ≤ 1 ∧ (0 : Int) ≤ 1 ∧
      (1 : Int) + blockPattern.length ≤ (gridWith 5 6 [(1, 1), (2, 2)]).RowsCount ∧
      (1 : Int) + (2 : Nat) ≤ (gridWith 5 6 [(1, 1), (2, 2)]).ColsCount ∧
      ∃ sc1, setPattern (gridWith 5 6 [(1, 1), (2, 2)]) blockPattern 1 1 = .ok (sc1, none) ∧
        sc1.RowsCount = (gridWith 5 6 [(1, 1), (2, 2)]).RowsCount ∧
        sc1.ColsCount = (gridWith 5 6 [(1, 1), (2, 2)]).ColsCount ∧ valid sc1 ∧
        (∀ i k : Nat, i < blockPattern.length → k < 2 →
          ∃ b, readCell blockPattern k i = .ok b ∧
            readCell sc1.Field ((1 : Int) + k) ((1 : Int) + i) = .ok b) ∧
        (∀ a b : Int, ¬ ((1 : Int) ≤ a ∧ a < (1 : Int) + (2 : Nat) ∧ (1 : Int) ≤ b ∧
            b < (1 : Int) + blockPattern.length) →
          readCell sc1.Field a b = readCell (gridWith 5 6 [(1, 1), (2, 2)]).Field a b) :=
  ⟨by decide, by decide, by decide, by decide, by decide, by decide, by decide,
    setPattern_frame (gridWith 5 6 [(1, 1), (2, 2)]) blockPattern 2 1 1 (by decide) (by decide)
      (by decide) (by decide) (by decide) (by decide) (by decide)⟩

theorem shape_gridWith (R C : Nat) (cells : List (Nat × Nat)) :
    shape (gridWith R C cells).Field R C := by
  refine ⟨by simp [gridWith], ?_⟩
  intro row hrow
  simp only [gridWith, List.mem_map] at hrow
  obtain ⟨r, _, rfl⟩ := hrow
  simp

theorem get2_gridWith {R C r c : Nat} (cells : List (Nat × Nat)) (hr : r < R) (hc : c < C) :
    get2 (gridWith R C cells).Field r c = some (decide ((c, r) ∈ cells)) := by
  simp [get2, gridWith, List.getElem?_map, List.getElem?_range, hr, hc]

theorem alive_gridWith (R C : Nat) (cells : List (Nat × Nat)) (x y : Int) :
    alive (gridWith R C cells).Field x y = aliveCells R C cells x y := by
  unfold alive aliveCells
  by_cases hin : 0 ≤ x ∧ 0 ≤ y ∧ x < C ∧ y < R
  · obtain ⟨h1, h2, h3, h4⟩ := hin
    rw [get2_gridWith cells (by omega) (by omega)]
    simp [h1, h2, h3, h4]
  · by_cases h1 : 0 ≤ x
    · by_cases h2 : 0 ≤ y
      · rw [get2_ge (shape_gridWith R C cells) (by omega)]
        by_cases h3 : x < C
        · have h4 : ¬ (y < R) := fun h4 => hin ⟨h1, h2, h3, h4⟩
          simp [h4]
        · simp [h3]
      · simp [h2]
    · simp [h1]

theorem livingNeighbors_gridWith (R C : Nat) (cells : List (Nat × Nat)) (x y : Int) :
    livingNeighbors (gridWith R C cells).Field x y = neighborsCells R C cells x y := by
  unfold livingNeighbors neighborsCells
  simp only [alive_gridWith]

theorem nextState_gridWith (R C : Nat) (cells : List (Nat × Nat)) (x y : Int) :
    nextState (gridWith R C cells).Field x y = nextStateCells R C cells x y := by
  unfold nextState nextStateCells
  simp only [livingNeighbors_gridWith]

theorem mooreOffsets_ge : ∀ d ∈ mooreOffsets, -1 ≤ d.1 ∧ -1 ≤ d.2 := by
  decide

theorem inBox_lt {cells : List (Nat × Nat)} {w h : Nat} (hb : inBox cells w h = true)
    {p : Nat × Nat} (hp : p ∈ cells) : p.1 < w ∧ p.2 < h := by
  have h1 := (List.all_eq_true.mp hb) p hp
  simp only [Bool.and_eq_true, decide_eq_true_eq] at h1
  exact h1

theorem neighborsCells_far {R C : Nat} {cells : List (Nat × Nat)} {w h : Nat}
    (hb : inBox cells w h = true) {c r : Nat} (hfar : w < c ∨ h < r) :
    neighborsCells R C cells (c : Int) (r : Int) = 0 := by
  have hnil : (mooreOffsets.filter fun d =>
      aliveCells R C cells ((c : Int) + d.1) ((r : Int) + d.2)) = [] := by
    rw [List.filter_eq_nil_iff]
    intro d hd hal
    obtain ⟨d1, d2⟩ := mooreOffsets_ge d hd
    simp only [aliveCells, Bool.and_eq_true, decide_eq_true_eq] at hal
    obtain ⟨_, hm⟩ := hal
    have hp := inBox_lt hb hm
    simp only at hp
    omega
  unfold neighborsCells
  rw [hnil]
  rfl

theorem aliveCells_far {R C : Nat} {cells : List (Nat × Nat)} {w h : Nat}
    (hb : inBox cells w h = true) {c r : Nat} (hfar : w < c ∨ h < r) :
    aliveCells R C cells (c : Int) (r : Int) = false := by
  cases hal : aliveCells R C cells (c : Int) (r : Int) with
  | false => rfl
  | true =>
    simp only [aliveCells, Bool.and_eq_true, decide_eq_true_eq] at hal
    obtain ⟨_, hm⟩ := hal
    have hp := inBox_lt hb hm
    simp only [Int.toNat_ofNat] at hp
    omega

/-- One generation of a grid given by its list of living cells, checked on a
window that contains every living cell with a margin of one. -/
theorem step_gridWith (R C : Nat) (cells cells1 : List (Nat × Nat)) (w h : Nat)
    (hb : inBox cells w h = true) (hb1 : inBox cells1 (w + 1) (h + 1) = true)
    (hw : windowOk R C cells cells1 (w + 1) (h + 1) = true) :
    step (gridWith R C cells) = gridWith R C cells1 := by
  have hf : nextField (gridWith R C cells).Field R C = (gridWith R C cells1).Field := by
    apply shape_ext (shape_nextField _ R C) (shape_gridWith R C cells1)
    intro r c hr hc
    rw [get2_nextField _ hr hc, get2_gridWith cells1 hr hc, nextState_gridWith]
    congr 1
    by_cases hwin : c ≤ w ∧ r ≤ h
    · have h1 := (List.all_eq_true.mp hw) r (List.mem_range.mpr (by omega))
      have h2 := (List.all_eq_true.mp h1) c (List.mem_range.mpr (by omega))
      exact beq_iff_eq.mp h2
    · unfold nextStateCells
      rw [neighborsCells_far hb (by omega)]
      have h0 : decide ((0 : Int) = 2 ∨ (0 : Int) = 3) = false := by decide
      rw [h0]
      symm
      rw [decide_eq_false_iff_not]
      intro hm
      have hp := inBox_lt hb1 hm
      simp only at hp
      omega
  show screen.mk _ _ (nextField (gridWith R C cells).Field
    (gridWith R C cells).RowsCount.toNat (gridWith R C cells).ColsCount.toNat) = _
  have e1 : (gridWith R C cells).RowsCount.toNat = R := by simp [gridWith]
  have e2 : (gridWith R C cells).ColsCount.toNat = C := by simp [gridWith]
  rw [e1, e2, hf]
  rfl

theorem shape_conwayField (f : List (List Bool)) (R C : Nat) :
    shape (conwayField f R C) R C := by
  refine ⟨by simp [conwayField], ?_⟩
  intro row hrow
  simp only [conwayField, List.mem_map] at hrow
  obtain ⟨r, _, rfl⟩ := hrow
  simp

theorem get2_conwayField (f : List (List Bool)) {R C r c : Nat} (hr : r < R) (hc : c < C) :
    get2 (conwayField f R C) r c =
      some (conwayRule (alive f (c : Int) (r : Int)) (livingNeighbors f (c : Int) (r : Int))) := by
  simp [get2, conwayField, List.getElem?_map, List.getElem?_range, hr, hc]

/-- One generation under `conwayRule` of a grid given by its list of living
cells, checked on a window that contains every living cell with a margin of one. -/
theorem conwayStep_gridWith (R C : Nat) (cells cells1 : List (Nat × Nat)) (w h : Nat)
    (hb : inBox cells w h = true) (hb1 : inBox cells1 (w + 1) (h + 1) = true)
    (hw : conwayWindowOk R C cells cells1 (w + 1) (h + 1) = true) :
    conwayStep (gridWith R C cells) = gridWith R C cells1 := by
  have hf : conwayField (gridWith R C cells).Field R C = (gridWith R C cells1).Field := by
    apply shape_ext (shape_conwayField _ R C) (shape_gridWith R C cells1)
    intro r c hr hc
    rw [get2_conwayField _ hr hc, get2_gridWith cells1 hr hc, alive_gridWith,
      livingNeighbors_gridWith]
    congr 1
    by_cases hwin : c ≤ w ∧ r ≤ h
    · have h1 := (List.all_eq_true.mp hw) r (List.mem_range.mpr (by omega))
      have h2 := (List.all_eq_true.mp h1) c (List.mem_range.mpr (by omega))
      exact beq_iff_eq.mp h2
    · rw [neighborsCells_far hb (by omega), aliveCells_far hb (by omega)]
      have h0 : conwayRule false 0 = false := by decide
      rw [h0]
      symm
      rw [decide_eq_false_iff_not]
      intro hm
      have hp := inBox_lt hb1 hm
      simp only at hp
      omega
  show screen.mk _ _ (conwayField (gridWith R C cells).Field
    (gridWith R C cells).RowsCount.toNat (gridWith R C cells).ColsCount.toNat) = _
  have e1 : (gridWith R C cells).RowsCount.toNat = R := by simp [gridWith]
  have e2 : (gridWith R C cells).ColsCount.toNat = C := by simp [gridWith]
  rw [e1, e2, hf]
  rfl

theorem glider_step1 : step (gridWith 25 40 (gliderCells 10 10)) =
    gridWith 25 40 [(10, 9), (11, 9), (12, 9), (9, 10), (10, 10), (11, 10), (9, 11), (10, 11),
      (12, 11), (10, 12)] :=
  step_gridWith 25 40 _ _ 14 14 (by decide) (by decide) (by decide!)

theorem glider_step2 :
    step (gridWith 25 40 [(10, 9), (11, 9), (12, 9), (9, 10), (10, 10), (11, 10), (9, 11),
      (10, 11), (12, 11), (10, 12)]) =
    gridWith 25 40 [(10, 8), (11, 8), (12, 8), (9, 9), (12, 9), (8, 10), (13, 10), (8, 11),
      (9, 12), (10, 12), (11, 12)] :=
  step_gridWith 25 40 _ _ 14 14 (by decide) (by decide) (by decide!)

theorem glider_step3 :
    step (gridWith 25 40 [(10, 8), (11, 8), (12, 8), (9, 9), (12, 9), (8, 10), (13, 10), (8, 11),
      (9, 12), (10, 12), (11, 12)]) =
    gridWith 25 40 [(10, 7), (11, 7), (12, 7), (9, 8), (10, 8), (11, 8), (12, 8), (13, 8), (8, 9),
      (9, 9), (10, 9), (12, 9), (13, 9), (7, 10), (8, 10), (9, 10), (12, 10), (7, 11), (8, 11),
      (10, 11), (11, 11), (12, 11), (8, 12), (9, 12), (10, 12), (9, 13), (10, 13), (11, 13)] :=
  step_gridWith 25 40 _ _ 14 14 (by decide) (by decide) (by decide!)

theorem glider_step4 :
    step (gridWith 25 40 [(10, 7), (11, 7), (12, 7), (9, 8), (10, 8), (11, 8), (12, 8), (13, 8),
      (8, 9), (9, 9), (10, 9), (12, 9), (13, 9), (7, 10), (8, 10), (9, 10), (12, 10), (7, 11),
      (8, 11), (10, 11), (11, 11), (12, 11), (8, 12), (9, 12), (10, 12), (9, 13), (10, 13),
      (11, 13)]) =
    gridWith 25 40 [(10, 6), (11, 6), (12, 6), (9, 7), (13, 7), (8, 8), (14, 8), (7, 9), (14, 9),
      (6, 10), (6, 11), (12, 11), (13, 11), (7, 12), (12, 12), (8, 13), (11, 13), (9, 14),
      (10, 14), (11, 14)] :=
  step_gridWith 25 40 _ _ 15 15 (by decide) (by decide) (by decide!)

/-- Four generations of `nextGen` on the grid seeded with `gliderPattern` at
offset `(10, 10)`. -/
theorem glider_iterate4 : step^[4] (gridWith 25 40 (gliderCells 10 10)) =
    gridWith 25 40 [(10, 6), (11, 6), (12, 6), (9, 7), (13, 7), (8, 8), (14, 8), (7, 9), (14, 9),
      (6, 10), (6, 11), (12, 11), (13, 11), (7, 12), (12, 12), (8, 13), (11, 13), (9, 14),
      (10, 14), (11, 14)] := by
  simp only [Function.iterate_succ, Function.iterate_zero, Function.comp, id]
  rw [glider_step1, glider_step2, glider_step3, glider_step4]

theorem block_step1 : step (gridWith 25 40 (blockCells 10 10)) =
    gridWith 25 40 [(10, 9), (11, 9), (9, 10), (10, 10), (11, 10), (12, 10), (9, 11), (10, 11),
      (11, 11), (12, 11), (10, 12), (11, 12)] :=
  step_gridWith 25 40 _ _ 12 12 (by decide) (by decide) (by decide!)

theorem block_conwayStep :
    conwayStep (gridWith 25 40 (blockCells 10 10)) = gridWith 25 40 (blockCells 10 10) :=
  conwayStep_gridWith 25 40 _ _ 12 12 (by decide) (by decide) (by decide!)

theorem glider_conwayStep1 : conwayStep (gridWith 25 40 (gliderCells 10 10)) =
    gridWith 25 40 [(11, 9), (10, 10), (11, 10), (10, 11), (12, 11)] :=
  conwayStep_gridWith 25 40 _ _ 13 13 (by decide) (by decide) (by decide!)

theorem glider_conwayStep2 :
    conwayStep (gridWith 25 40 [(11, 9), (10, 10), (11, 10), (10, 11), (12, 11)]) =
    gridWith 25 40 [(10, 9), (11, 9), (10, 10), (12, 10), (10, 11)] :=
  conwayStep_gridWith 25 40 _ _ 13 13 (by decide) (by decide) (by decide!)

theorem glider_conwayStep3 :
    conwayStep (gridWith 25 40 [(10, 9), (11, 9), (10, 10), (12, 10), (10, 11)]) =
    gridWith 25 40 [(10, 9), (11, 9), (9, 10), (10, 10), (11, 11)] :=
  conwayStep_gridWith 25 40 _ _ 13 13 (by decide) (by decide) (by decide!)

theorem glider_conwayStep4 :
    conwayStep (gridWith 25 40 [(10, 9), (11, 9), (9, 10), (10, 10), (11, 11)]) =
    gridWith 25 40 [(9, 9), (10, 9), (11, 9), (9, 10), (10, 11)] :=
  conwayStep_gridWith 25 40 _ _ 13 13 (by decide) (by decide) (by decide!)

/-- Under `conwayRule` the shape of `gliderPattern` seeded at `(10, 10)` is back
after four generations at offset `(9, 9)`: it moves by `(-1, -1)`. -/
theorem glider_conway4 : conwayStep^[4] (gridWith 25 40 (gliderCells 10 10)) =
    gridWith 25 40 (gliderCells 9 9) := by
  simp only [Function.iterate_succ, Function.iterate_zero, Function.comp, id]
  rw [glider_conwayStep1, glider_conwayStep2, glider_conwayStep3, glider_conwayStep4]
  rfl

set_option maxRecDepth 100000 in
theorem glider_seed : setPattern (gridWith 25 40 []) gliderPattern 10 10 =
    .ok (gridWith 25 40 (gliderCells 10 10), none) := by
  decide!

set_option maxRecDepth 100000 in
theorem block_seed : setPattern (gridWith 25 40 []) blockPattern 10 10 =
    .ok (gridWith 25 40 (blockCells 10 10), none) := by
  decide!

theorem readCell_gridWith {R C x y : Nat} (cells : List (Nat × Nat)) (hx : x < C) (hy : y < R) :
    readCell (gridWith R C cells).Field (x : Int) (y : Int) = .ok (decide ((x, y) ∈ cells)) := by
  rw [readCell_eq _ (by omega) (by omega)]
  simp only [Int.toNat_ofNat]
  rw [get2_gridWith cells hy hx]

theorem countLivingNeighbor_gridWith (R C : Nat) (hR : 0 < R) (cells : List (Nat × Nat))
    (x y : Int) :
    countLivingNeighbor (gridWith R C cells) x y = .ok (neighborsCells R C cells x y) := by
  rw [countLivingNeighbor_eq (shape_gridWith R C cells) hR, livingNeighbors_gridWith]

/-- C4 (code defect): `nextGen` does not follow Conway's rules. `nextCellStateOf`
agrees with `conwayRule` for a living cell at every count and for a dead cell at
every count except 2. On the 40x25 grid seeded with `gliderPattern` at `(10, 10)`
the cell `(10, 9)` is dead and has exactly 2 living neighbours, so it stays dead
under Conway's rules, yet it is live in the grid `nextGen` returns. -/
theorem nextGen_not_conway :
    (∀ n : Int, nextCellStateOf n = .ok (conwayRule true n)) ∧
    (∀ n : Int, nextCellStateOf n = .ok (conwayRule false n) ↔ n ≠ 2) ∧
    valid (gridWith 25 40 (gliderCells 10 10)) ∧
    readCell (gridWith 25 40 (gliderCells 10 10)).Field 10 9 = .ok false ∧
    countLivingNeighbor (gridWith 25 40 (gliderCells 10 10)) 10 9 = .ok 2 ∧
    conwayRule false 2 = false ∧
    ∃ next, nextGen (gridWith 25 40 (gliderCells 10 10)) = .ok (.ok next) ∧
      readCell next.Field 10 9 = .ok true := by
  refine ⟨?_, ?_, valid_gridWith 25 40 (by decide) (by decide) _, ?_, ?_, by decide, ?_⟩
  · intro n
    rw [nextCellStateOf_eq]
    simp [conwayRule]
  · intro n
    rw [nextCellStateOf_eq]
    simp only [conwayRule, Except.ok.injEq, Bool.false_and, Bool.not_false, Bool.true_and,
      Bool.false_or]
    by_cases h2 : n = 2
    · subst h2
      simp
    · by_cases h3 : n = 3
      · subst h3
        simp
      · simp [h2, h3]
  · exact readCell_gridWith (R := 25) (C := 40) (x := 10) (y := 9) _ (by decide) (by decide)
  · rw [countLivingNeighbor_gridWith 25 40 (by decide)]
    decide
  · refine ⟨_, nextGen_eq (valid_gridWith 25 40 (by decide) (by decide) _), ?_⟩
    rw [glider_step1]
    exact readCell_gridWith (R := 25) (C := 40) (x := 10) (y := 9) _ (by decide) (by decide)

/-- C5 (code defect): the block is not a still life under `nextGen`. On the grid of
`newScreen(40, 25)` seeded with `blockPattern` at `(10, 10)`, `nextGen` returns the
grid with twelve living cells (the block and the eight cells that touch two of
its cells along a side); the cell `(10, 9)` is dead in the seeded grid and live
in the result. Under `conwayRule` the seeded grid is unchanged. -/
theorem block_not_still :
    newScreen FieldColSize FieldRowSize = .ok (gridWith 25 40 []) ∧
    setPattern (gridWith 25 40 []) blockPattern 10 10 =
      .ok (gridWith 25 40 (blockCells 10 10), none) ∧
    nextGen (gridWith 25 40 (blockCells 10 10)) =
      .ok (.ok (gridWith 25 40 [(10, 9), (11, 9), (9, 10), (10, 10), (11, 10), (12, 10), (9, 11),
        (10, 11), (11, 11), (12, 11), (10, 12), (11, 12)])) ∧
    readCell (gridWith 25 40 (blockCells 10 10)).Field 10 9 = .ok false ∧
    readCell (gridWith 25 40 [(10, 9), (11, 9), (9, 10), (10, 10), (11, 10), (12, 10), (9, 11),
      (10, 11), (11, 11), (12, 11), (10, 12), (11, 12)]).Field 10 9 = .ok true ∧
    conwayStep (gridWith 25 40 (blockCells 10 10)) = gridWith 25 40 (blockCells 10 10) := by
  refine ⟨newScreen_main, block_seed, ?_, ?_, ?_, block_conwayStep⟩
  · rw [nextGen_eq (valid_gridWith 25 40 (by decide) (by decide) _), block_step1]
  · exact readCell_gridWith (R := 25) (C := 40) (x := 10) (y := 9) _ (by decide) (by decide)
  · exact readCell_gridWith (R := 25) (C := 40) (x := 10) (y := 9) _ (by decide) (by decide)

/-- C6 (code defect): on the grid of `newScreen(40, 25)` seeded with `gliderPattern`
at `(10, 10)`, four calls of `nextGen` do not give back the glider: they give a
grid with twenty living cells, among them `(10, 6)`, which is dead in the glider
placed at `(11, 11)`, and the result is the five-cell glider shape at no offset
at all. Under `conwayRule` the seeded shape is back after four generations, at
offset `(9, 9)`. -/
theorem glider_not_displaced :
    newScreen FieldColSize FieldRowSize = .ok (gridWith 25 40 []) ∧
    setPattern (gridWith 25 40 []) gliderPattern 10 10 =
      .ok (gridWith 25 40 (gliderCells 10 10), none) ∧
    nextGenN 4 (gridWith 25 40 (gliderCells 10 10)) =
      .ok (.ok (gridWith 25 40 [(10, 6), (11, 6), (12, 6), (9, 7), (13, 7), (8, 8), (14, 8),
        (7, 9), (14, 9), (6, 10), (6, 11), (12, 11), (13, 11), (7, 12), (12, 12), (8, 13),
        (11, 13), (9, 14), (10, 14), (11, 14)])) ∧
    readCell (gridWith 25 40 [(10, 6), (11, 6), (12, 6), (9, 7), (13, 7), (8, 8), (14, 8),
        (7, 9), (14, 9), (6, 10), (6, 11), (12, 11), (13, 11), (7, 12), (12, 12), (8, 13),
        (11, 13), (9, 14), (10, 14), (11, 14)]).Field 10 6 = .ok true ∧
    readCell (gridWith 25 40 (gliderCells 11 11)).Field 10 6 = .ok false ∧
    nextGenN 4 (gridWith 25 40 (gliderCells 10 10)) ≠
      .ok (.ok (gridWith 25 40 (gliderCells 11 11))) ∧
    (∀ x y : Nat, nextGenN 4 (gridWith 25 40 (gliderCells 10 10)) ≠
      .ok (.ok (gridWith 25 40 (gliderCells x y)))) ∧
    conwayStep^[4] (gridWith 25 40 (gliderCells 10 10)) = gridWith 25 40 (gliderCells 9 9) := by
  have h4 := (nextGenN_eq (valid_gridWith 25 40 (by decide) (by decide) (gliderCells 10 10)) 4).1
  rw [glider_iterate4] at h4
  have ha := readCell_gridWith (R := 25) (C := 40) (x := 10) (y := 6)
    [(10, 6), (11, 6), (12, 6), (9, 7), (13, 7), (8, 8), (14, 8),
        (7, 9), (14, 9), (6, 10), (6, 11), (12, 11), (13, 11), (7, 12), (12, 12), (8, 13),
        (11, 13), (9, 14), (10, 14), (11, 14)] (by decide) (by decide)
  have hc := readCell_gridWith (R := 25) (C := 40) (x := 6) (y := 10)
    [(10, 6), (11, 6), (12, 6), (9, 7), (13, 7), (8, 8), (14, 8),
        (7, 9), (14, 9), (6, 10), (6, 11), (12, 11), (13, 11), (7, 12), (12, 12), (8, 13),
        (11, 13), (9, 14), (10, 14), (11, 14)] (by decide) (by decide)
  have hb := readCell_gridWith (R := 25) (C := 40) (x := 10) (y := 6) (gliderCells 11 11)
    (by decide) (by decide)
  have hany : ∀ x y : Nat, gridWith 25 40 [(10, 6), (11, 6), (12, 6), (9, 7), (13, 7), (8, 8),
      (14, 8), (7, 9), (14, 9), (6, 10), (6, 11), (12, 11), (13, 11), (7, 12), (12, 12), (8, 13),
      (11, 13), (9, 14), (10, 14), (11, 14)] ≠ gridWith 25 40 (gliderCells x y) := by
    intro x y he
    rw [he] at ha hc
    rw [readCell_gridWith (R := 25) (C := 40) (x := 10) (y := 6) (gliderCells x y)
      (by decide) (by decide)] at ha
    rw [readCell_gridWith (R := 25) (C := 40) (x := 6) (y := 10) (gliderCells x y)
      (by decide) (by decide)] at hc
    have m1 := of_decide_eq_true (Except.ok.inj ha)
    have m2 := of_decide_eq_true (Except.ok.inj hc)
    simp only [gliderCells, List.mem_cons, Prod.mk.injEq, List.mem_singleton,
      List.mem_nil_iff, or_false] at m1 m2
    omega
  refine ⟨newScreen_main, glider_seed, h4, ha, hb, ?_, ?_, glider_conway4⟩
  · rw [h4]
    intro he
    exact hany 11 11 (Except.ok.inj (Except.ok.inj he))
  · intro x y
    rw [h4]
    intro he
    exact hany x y (Except.ok.inj (Except.ok.inj he))

set_option maxRecDepth 100000 in
/-- C7 (code defect): a pattern whose footprint exceeds the grid is not rejected.
On the 40x25 grid `checkPattern` returns nil for `gliderPattern` at offset
`(38, 10)` (columns 38..40) and at offset `(10, 23)` (rows 23..25), and `setPattern`
then panics with an index out of range instead of returning an error. -/
theorem setPattern_overflow_panics :
    newScreen FieldColSize FieldRowSize = .ok (gridWith 25 40 []) ∧
    checkPattern (gridWith 25 40 []) gliderPattern 38 10 = .ok none ∧
    setPattern (gridWith 25 40 []) gliderPattern 38 10 = .error .indexOutOfRange ∧
    checkPattern (gridWith 25 40 []) gliderPattern 10 23 = .ok none ∧
    setPattern (gridWith 25 40 []) gliderPattern 10 23 = .error .indexOutOfRange :=
  ⟨newScreen_main, by decide!, by decide!, by decide!, by decide!⟩

/-- C11: `newScreen(colSize, rowSize)` returns an error exactly when `colSize <= 0`
or `rowSize <= 0`; the error is the colSize error exactly when `colSize <= 0`
(also when `rowSize` is invalid too) and the rowSize error exactly when
`colSize > 0` and `rowSize <= 0`; the two errors carry different texts that name
the parameter. -/
theorem newScreen_error_iff (colSize rowSize : Int) :
    ((∃ e, newScreen colSize rowSize = .error e) ↔ (colSize ≤ 0 ∨ rowSize ≤ 0)) ∧
    ((∃ sc, newScreen colSize rowSize = .ok sc) ↔ (0 < colSize ∧ 0 < rowSize)) ∧
    (newScreen colSize rowSize = .error .colSize ↔ colSize ≤ 0) ∧
    (newScreen colSize rowSize = .error .rowSize ↔ (0 < colSize ∧ rowSize ≤ 0)) ∧
    GoError.colSize.Error = "colSize must be greater than 0" ∧
    GoError.rowSize.Error = "rowSize must be greater than 0" := by
  unfold newScreen
  by_cases hc : colSize ≤ 0
  · rw [if_pos hc]
    refine ⟨⟨fun _ => Or.inl hc, fun _ => ⟨_, rfl⟩⟩, ⟨?_, ?_⟩, ⟨fun _ => hc, fun _ => rfl⟩,
      ⟨?_, ?_⟩, rfl, rfl⟩
    · rintro ⟨sc, h⟩
      cases h
    · intro h
      omega
    · intro h
      cases h
    · intro h
      omega
  · rw [if_neg hc]
    by_cases hr : rowSize ≤ 0
    · rw [if_pos hr]
      refine ⟨⟨fun _ => Or.inr hr, fun _ => ⟨_, rfl⟩⟩, ⟨?_, ?_⟩, ⟨?_, ?_⟩,
        ⟨fun _ => ⟨by omega, hr⟩, fun _ => rfl⟩, rfl, rfl⟩
      · rintro ⟨sc, h⟩
        cases h
      · intro h
        omega
      · intro h
        cases h
      · intro h
        exact absurd h hc
    · rw [if_neg hr]
      refine ⟨⟨?_, ?_⟩, ⟨fun _ => ⟨by omega, by omega⟩, fun _ => ⟨_, rfl⟩⟩, ⟨?_, ?_⟩, ⟨?_, ?_⟩,
        rfl, rfl⟩
      · rintro ⟨e, h⟩
        cases h
      · intro h
        omega
      · intro h
        cases h
      · intro h
        exact absurd h hc
      · intro h
        cases h
      · intro h
        omega

/-- C12: on a grid that satisfies the grid invariant, `isSafeIdx(x, y)` returns
true exactly when `0 <= x < ColsCount` and `0 <= y < RowsCount`, for all integers
`x`, `y`; the coordinate pairs on which it is true are exactly the product of the
two ranges, which has `ColsCount * RowsCount` elements. -/
theorem isSafeIdx_iff (sc : screen) (h : valid sc) (x y : Int) :
    isSafeIdx sc x y = .ok (decide (0 ≤ x ∧ x < sc.ColsCount ∧ 0 ≤ y ∧ y < sc.RowsCount)) ∧
    (isSafeIdx sc x y = .ok true ↔ (0 ≤ x ∧ x < sc.ColsCount ∧ 0 ≤ y ∧ y < sc.RowsCount)) ∧
    ((x < 0 ∨ y < 0) → isSafeIdx sc x y = .ok false) ∧
    (∀ p : Int × Int, isSafeIdx sc p.1 p.2 = .ok true ↔
      p ∈ Finset.Ico 0 sc.ColsCount ×ˢ Finset.Ico 0 sc.RowsCount) ∧
    ((Finset.Ico 0 sc.ColsCount ×ˢ Finset.Ico 0 sc.RowsCount).card : Int) =
      sc.ColsCount * sc.RowsCount := by
  obtain ⟨hs, hR, hC⟩ := valid_shape h
  obtain ⟨h1, h2, h3, h4⟩ := h
  have key : ∀ a b : Int, isSafeIdx sc a b =
      .ok (decide (0 ≤ a ∧ a < sc.ColsCount ∧ 0 ≤ b ∧ b < sc.RowsCount)) := by
    intro a b
    rw [isSafeIdx_eq hs hR]
    congr 1
    apply decide_eq_decide.mpr
    constructor <;> intro hh <;> omega
  have key2 : ∀ a b : Int, isSafeIdx sc a b = .ok true ↔
      (0 ≤ a ∧ a < sc.ColsCount ∧ 0 ≤ b ∧ b < sc.RowsCount) := by
    intro a b
    rw [key]
    constructor
    · intro hh
      exact of_decide_eq_true (Except.ok.inj hh)
    · intro hh
      rw [decide_eq_true hh]
  refine ⟨key x y, key2 x y, ?_, ?_, ?_⟩
  · intro hneg
    rw [key, decide_eq_false (by omega)]
  · intro p
    rw [key2, Finset.mem_product, Finset.mem_Ico, Finset.mem_Ico]
    constructor <;> intro hh <;> omega
  · rw [Finset.card_product, Int.card_Ico, Int.card_Ico]
    push_cast
    rw [Int.toNat_of_nonneg (by omega), Int.toNat_of_nonneg (by omega)]
    ring

theorem isSafeIdx_iff_witness :
    valid (gridWith 25 40 (gliderCells 10 10)) ∧
    isSafeIdx (gridWith 25 40 (gliderCells 10 10)) 39 (-1) =
      .ok (decide ((0 : Int) ≤ 39 ∧ (39 : Int) < (gridWith 25 40 (gliderCells 10 10)).ColsCount ∧
        (0 : Int) ≤ -1 ∧ (-1 : Int) < (gridWith 25 40 (gliderCells 10 10)).RowsCount)) ∧
    (isSafeIdx (gridWith 25 40 (gliderCells 10 10)) 39 (-1) = .ok true ↔
      ((0 : Int) ≤ 39 ∧ (39 : Int) < (gridWith 25 40 (gliderCells 10 10)).ColsCount ∧
        (0 : Int) ≤ -1 ∧ (-1 : Int) < (gridWith 25 40 (gliderCells 10 10)).RowsCount)) ∧
    (((39 : Int) < 0 ∨ (-1 : Int) < 0) →
      isSafeIdx (gridWith 25 40 (gliderCells 10 10)) 39 (-1) = .ok false) ∧
    (∀ p : Int × Int, isSafeIdx (gridWith 25 40 (gliderCells 10 10)) p.1 p.2 = .ok true ↔
      p ∈ Finset.Ico 0 (gridWith 25 40 (gliderCells 10 10)).ColsCount ×ˢ
        Finset.Ico 0 (gridWith 25 40 (gliderCells 10 10)).RowsCount) ∧
    ((Finset.Ico 0 (gridWith 25 40 (gliderCells 10 10)).ColsCount ×ˢ
        Finset.Ico 0 (gridWith 25 40 (gliderCells 10 10)).RowsCount).card : Int) =
      (gridWith 25 40 (gliderCells 10 10)).ColsCount *
        (gridWith 25 40 (gliderCells 10 10)).RowsCount :=
  ⟨valid_gridWith 25 40 (by decide) (by decide) _,
    isSafeIdx_iff (gridWith 25 40 (gliderCells 10 10))
      (valid_gridWith 25 40 (by decide) (by decide) _) 39 (-1)⟩

theorem alive_out {f : List (List Bool)} {R C : Nat} (h : shape f R C) {a b : Int}
    (ho : a < 0 ∨ (C : Int) ≤ a ∨ b < 0 ∨ (R : Int) ≤ b) : alive f a b = false := by
  unfold alive
  by_cases h1 : 0 ≤ a
  · by_cases h2 : 0 ≤ b
    · rw [get2_ge h (by omega)]
      simp
    · simp [h2]
  · simp [h1]

theorem aliveTerm {f : List (List Bool)} {R C : Nat} (h : shape f R C) (a b : Int) :
    0 ≤ (if alive f a b = true then (1 : Int) else 0) ∧
    (if alive f a b = true then (1 : Int) else 0) ≤ 1 ∧
    ((a < 0 ∨ (C : Int) ≤ a ∨ b < 0 ∨ (R : Int) ≤ b) →
      (if alive f a b = true then (1 : Int) else 0) = 0) := by
  refine ⟨by split <;> omega, by split <;> omega, ?_⟩
  intro ho
  rw [alive_out h ho]
  rfl

theorem shape_fullGrid (R C : Nat) : shape (fullGrid R C).Field R C := by
  refine ⟨by simp [fullGrid], ?_⟩
  intro row hrow
  simp only [fullGrid] at hrow
  rw [List.eq_of_mem_replicate hrow]
  simp

theorem valid_fullGrid (R C : Nat) (hR : 0 < R) (hC : 0 < C) : valid (fullGrid R C) := by
  obtain ⟨h1, h2⟩ := shape_fullGrid R C
  refine ⟨by simp [fullGrid]; omega, by simp [fullGrid]; omega, ?_, ?_⟩
  · show ((fullGrid R C).Field.length : Int) = (R : Int)
    rw [h1]
  · intro row hrow
    show (row.length : Int) = (C : Int)
    rw [h2 row hrow]

theorem alive_fullGrid (R C : Nat) (a b : Int) :
    alive (fullGrid R C).Field a b = decide (0 ≤ a ∧ a < C ∧ 0 ≤ b ∧ b < R) := by
  by_cases hin : 0 ≤ a ∧ a < C ∧ 0 ≤ b ∧ b < R
  · rw [decide_eq_true hin]
    unfold alive
    have hg : get2 (fullGrid R C).Field b.toNat a.toNat = some true := by
      have hb : b.toNat < R := by omega
      have ha : a.toNat < C := by omega
      simp [get2, fullGrid, List.getElem?_replicate, hb, ha]
    rw [hg]
    simp [hin.1, hin.2.2.1]
  · rw [decide_eq_false hin]
    exact alive_out (shape_fullGrid R C) (by omega)

theorem livingNeighbors_fullGrid (R C : Nat) (hC : 3 ≤ C) (hR : 3 ≤ R) :
    livingNeighbors (fullGrid R C).Field 0 0 = 3 ∧
    livingNeighbors (fullGrid R C).Field 1 0 = 5 ∧
    livingNeighbors (fullGrid R C).Field 1 1 = 8 := by
  have c0 : (0 : Int) < C := by omega
  have c1 : (1 : Int) < C := by omega
  have c2 : (2 : Int) < C := by omega
  have r0 : (0 : Int) < R := by omega
  have r1 : (1 : Int) < R := by omega
  have r2 : (2 : Int) < R := by omega
  refine ⟨?_, ?_, ?_⟩ <;>
    · rw [livingNeighbors_eq]
      simp [alive_fullGrid, c0, c1, c2, r0, r1, r2]

/-- C13: on a grid that satisfies the grid invariant, `countLivingNeighbor(x, y)`
returns a count in `[0, 8]`; the count is at most 5 when `(x, y)` is in the first
or last column or row, and at most 3 when it is in the first or last column and
in the first or last row (a corner). For every `c >= 3` and `r >= 3` the bounds
are attained on the all-live grid of `r` rows and `c` columns: 3 at the corner
`(0, 0)`, 5 at the edge cell `(1, 0)` and 8 at the interior cell `(1, 1)`. -/
theorem countLivingNeighbor_boundary (sc : screen) (h : valid sc) (x y : Int) :
    (∃ n, countLivingNeighbor sc x y = .ok n ∧ 0 ≤ n ∧ n ≤ 8 ∧
      ((x = 0 ∨ x = sc.ColsCount - 1 ∨ y = 0 ∨ y = sc.RowsCount - 1) → n ≤ 5) ∧
      (((x = 0 ∨ x = sc.ColsCount - 1) ∧ (y = 0 ∨ y = sc.RowsCount - 1)) → n ≤ 3)) ∧
    (∀ c r : Nat, 3 ≤ c → 3 ≤ r →
      valid (fullGrid r c) ∧ (fullGrid r c).ColsCount = c ∧ (fullGrid r c).RowsCount = r ∧
      countLivingNeighbor (fullGrid r c) 0 0 = .ok 3 ∧
      countLivingNeighbor (fullGrid r c) 1 0 = .ok 5 ∧
      countLivingNeighbor (fullGrid r c) 1 1 = .ok 8) := by
  obtain ⟨hs, hR, hC⟩ := valid_shape h
  obtain ⟨h1, h2, h3, h4⟩ := h
  constructor
  · refine ⟨_, countLivingNeighbor_eq hs hR x y, ?_⟩
    rw [livingNeighbors_eq]
    have t1 := aliveTerm hs (x - 1) (y - 1)
    have t2 := aliveTerm hs x (y - 1)
    have t3 := aliveTerm hs (x + 1) (y - 1)
    have t4 := aliveTerm hs (x - 1) y
    have t5 := aliveTerm hs (x + 1) y
    have t6 := aliveTerm hs (x - 1) (y + 1)
    have t7 := aliveTerm hs x (y + 1)
    have t8 := aliveTerm hs (x + 1) (y + 1)
    generalize (if alive sc.Field (x - 1) (y - 1) = true then (1 : Int) else 0) = a1 at t1 ⊢
    generalize (if alive sc.Field x (y - 1) = true then (1 : Int) else 0) = a2 at t2 ⊢
    generalize (if alive sc.Field (x + 1) (y - 1) = true then (1 : Int) else 0) = a3 at t3 ⊢
    generalize (if alive sc.Field (x - 1) y = true then (1 : Int) else 0) = a4 at t4 ⊢
    generalize (if alive sc.Field (x + 1) y = true then (1 : Int) else 0) = a5 at t5 ⊢
    generalize (if alive sc.Field (x - 1) (y + 1) = true then (1 : Int) else 0) = a6 at t6 ⊢
    generalize (if alive sc.Field x (y + 1) = true then (1 : Int) else 0) = a7 at t7 ⊢
    generalize (if alive sc.Field (x + 1) (y + 1) = true then (1 : Int) else 0) = a8 at t8 ⊢
    have eC : ((sc.ColsCount.toNat : Nat) : Int) = sc.ColsCount := Int.toNat_of_nonneg (by omega)
    have eR : ((sc.RowsCount.toNat : Nat) : Int) = sc.RowsCount := Int.toNat_of_nonneg (by omega)
    rw [eC, eR] at t1 t2 t3 t4 t5 t6 t7 t8
    refine ⟨by omega, by omega, ?_, ?_⟩
    · intro hedge
      omega
    · intro hcorner
      omega
  · intro c r hc hr
    obtain ⟨e1, e2, e3⟩ := livingNeighbors_fullGrid r c hc hr
    refine ⟨valid_fullGrid r c (by omega) (by omega), rfl, rfl, ?_, ?_, ?_⟩
    · rw [countLivingNeighbor_eq (shape_fullGrid r c) (by omega), e1]
    · rw [countLivingNeighbor_eq (shape_fullGrid r c) (by omega), e2]
    · rw [countLivingNeighbor_eq (shape_fullGrid r c) (by omega), e3]

theorem countLivingNeighbor_boundary_witness :
    valid (gridWith 3 3 [(1, 0), (0, 1), (1, 1), (2, 2)]) ∧
    (∃ n, countLivingNeighbor (gridWith 3 3 [(1, 0), (0, 1), (1, 1), (2, 2)]) 0 0 = .ok n ∧
      0 ≤ n ∧ n ≤ 8 ∧
      (((0 : Int) = 0 ∨ (0 : Int) = (gridWith 3 3 [(1, 0), (0, 1), (1, 1), (2, 2)]).ColsCount - 1 ∨
        (0 : Int) = 0 ∨ (0 : Int) = (gridWith 3 3 [(1, 0), (0, 1), (1, 1), (2, 2)]).RowsCount - 1) →
        n ≤ 5) ∧
      ((((0 : Int) = 0 ∨ (0 : Int) = (gridWith 3 3 [(1, 0), (0, 1), (1, 1), (2, 2)]).ColsCount - 1) ∧
        ((0 : Int) = 0 ∨ (0 : Int) = (gridWith 3 3 [(1, 0), (0, 1), (1, 1), (2, 2)]).RowsCount - 1)) →
        n ≤ 3)) ∧
    countLivingNeighbor (gridWith 3 3 [(1, 0), (0, 1), (1, 1), (2, 2)]) 0 0 = .ok 3 :=
  ⟨by decide,
    (countLivingNeighbor_boundary (gridWith 3 3 [(1, 0), (0, 1), (1, 1), (2, 2)])
      (by decide) 0 0).1,
    by decide⟩

theorem assign2_shape {f f1 : List (List Bool)} {R C : Nat} (h : shape f R C) {r c : Int}
    {v : Bool} (he : assign2 f r c v = .ok f1) : shape f1 R C := by
  unfold assign2 at he
  cases hi : index f r with
  | error e =>
    rw [hi] at he
    cases he
  | ok row =>
    rw [hi] at he
    obtain ⟨hr0, hrl, hget⟩ := index_lt hi
    simp only at he
    cases ha : assign row c v with
    | error e =>
      rw [ha] at he
      cases he
    | ok row1 =>
      rw [ha] at he
      simp only at he
      unfold assign at ha he
      rw [if_neg (show ¬ (r < 0) by omega), if_pos hrl] at he
      have he2 := Except.ok.inj he
      split at ha
      · cases ha
      · split at ha
        · have hrow : row.set c.toNat v = row1 := Except.ok.inj ha
          have hput : f1 = put f r.toNat c.toNat v := by
            rw [← he2, ← hrow]
            simp [put, hget]
          rw [hput]
          exact shape_put h _ _ _
        · cases ha

theorem setPatternRow_shape {R C : Nat} (i x y : Int) :
    ∀ (rest : List Bool) (k : Nat) (f f1 : List (List Bool)), shape f R C →
      setPatternRow i x y k rest f = .ok f1 → shape f1 R C := by
  intro rest
  induction rest with
  | nil =>
    intro k f f1 hs he
    simp only [setPatternRow] at he
    cases he
    exact hs
  | cons col rest ih =>
    intro k f f1 hs he
    simp only [setPatternRow] at he
    cases ha : assign2 f (i + y) ((k : Int) + x) col with
    | error e =>
      rw [ha] at he
      cases he
    | ok f2 =>
      rw [ha] at he
      exact ih (k + 1) f2 f1 (assign2_shape hs ha) he

theorem setPatternRows_shape {R C : Nat} (x y : Int) :
    ∀ (rows : List (List Bool)) (i : Nat) (f f1 : List (List Bool)), shape f R C →
      setPatternRows x y i rows f = .ok f1 → shape f1 R C := by
  intro rows
  induction rows with
  | nil =>
    intro i f f1 hs he
    simp only [setPatternRows] at he
    cases he
    exact hs
  | cons row rows ih =>
    intro i f f1 hs he
    simp only [setPatternRows] at he
    cases ha : setPatternRow (i : Int) x y 0 row f with
    | error e =>
      rw [ha] at he
      cases he
    | ok f2 =>
      rw [ha] at he
      exact ih (i + 1) f2 f1 (setPatternRow_shape _ x y row 0 f f2 hs ha) he

theorem setPattern_valid {sc sc1 : screen} {pattern : List (List Bool)} {x y : Int}
    {err : Option GoError} (h : valid sc) (he : setPattern sc pattern x y = .ok (sc1, err)) :
    valid sc1 ∧ sc1.RowsCount = sc.RowsCount ∧ sc1.ColsCount = sc.ColsCount := by
  obtain ⟨hs, hR, hC⟩ := valid_shape h
  unfold setPattern at he
  cases hc : checkPattern sc pattern x y with
  | error e =>
    rw [hc] at he
    cases he
  | ok r =>
    rw [hc] at he
    cases r with
    | some e1 =>
      simp only at he
      cases he
      exact ⟨h, rfl, rfl⟩
    | none =>
      simp only at he
      cases hr : setPatternRows x y 0 pattern sc.Field with
      | error e =>
        rw [hr] at he
        cases he
      | ok f1 =>
        rw [hr] at he
        cases he
        obtain ⟨s1, s2⟩ := setPatternRows_shape x y pattern 0 sc.Field f1 hs hr
        obtain ⟨h1, h2, h3, h4⟩ := h
        refine ⟨⟨h1, h2, ?_, ?_⟩, rfl, rfl⟩
        · show (f1.length : Int) = sc.RowsCount
          rw [s1]
          omega
        · intro row hrow
          show (row.length : Int) = sc.ColsCount
          rw [s2 row hrow]
          omega

theorem newScreen_valid {colSize rowSize : Int} {sc : screen}
    (he : newScreen colSize rowSize = .ok sc) :
    valid sc ∧ sc.RowsCount = rowSize ∧ sc.ColsCount = colSize := by
  unfold newScreen at he
  split at he
  · cases he
  · split at he
    · cases he
    · cases he
      refine ⟨⟨?_, ?_, ?_, ?_⟩, rfl, rfl⟩
      · show 0 < rowSize
        omega
      · show 0 < colSize
        omega
      · simp
        omega
      · intro row hrow
        simp only [List.map_replicate] at hrow
        rw [List.eq_of_mem_replicate hrow]
        simp
        omega

/-- C15: the grid invariant (`RowsCount > 0`, `ColsCount > 0`, `len(Field) = RowsCount`,
every row has `ColsCount` cells) holds for every grid that `newScreen` returns; when
it holds for `sc`, it holds for the receiver after every `setPattern` call that
returns (with a nil or a non-nil error), with the same `RowsCount` and
`ColsCount`; `nextGen` returns a grid that satisfies it with the same `RowsCount`
and `ColsCount`; and so does the grid after any number `n` of generations. -/
theorem grid_invariant (sc : screen) (h : valid sc) :
    (∀ (colSize rowSize : Int) (s : screen), newScreen colSize rowSize = .ok s →
      valid s ∧ s.RowsCount = rowSize ∧ s.ColsCount = colSize) ∧
    (∀ (pattern : List (List Bool)) (x y : Int) (sc1 : screen) (err : Option GoError),
      setPattern sc pattern x y = .ok (sc1, err) →
        valid sc1 ∧ sc1.RowsCount = sc.RowsCount ∧ sc1.ColsCount = sc.ColsCount) ∧
    (∃ next, nextGen sc = .ok (.ok next) ∧ valid next ∧
      next.RowsCount = sc.RowsCount ∧ next.ColsCount = sc.ColsCount) ∧
    (∀ n : Nat, ∃ s, nextGenN n sc = .ok (.ok s) ∧ valid s ∧
      s.RowsCount = sc.RowsCount ∧ s.ColsCount = sc.ColsCount) := by
  refine ⟨fun _ _ _ he => newScreen_valid he, fun _ _ _ _ _ he => setPattern_valid h he,
    ⟨_, nextGen_eq h, valid_step h, rfl, rfl⟩, ?_⟩
  intro n
  exact ⟨_, (nextGenN_eq h n).1, (nextGenN_eq h n).2, (step_dims sc n).1, (step_dims sc n).2⟩

theorem grid_invariant_witness :
    valid (gridWith 25 40 (blockCells 10 10)) ∧
    (∀ (colSize rowSize : Int) (s : screen), newScreen colSize rowSize = .ok s →
      valid s ∧ s.RowsCount = rowSize ∧ s.ColsCount = colSize) ∧
    (∀ (pattern : List (List Bool)) (x y : Int) (sc1 : screen) (err : Option GoError),
      setPattern (gridWith 25 40 (blockCells 10 10)) pattern x y = .ok (sc1, err) →
        valid sc1 ∧ sc1.RowsCount = (gridWith 25 40 (blockCells 10 10)).RowsCount ∧
          sc1.ColsCount = (gridWith 25 40 (blockCells 10 10)).ColsCount) ∧
    (∃ next, nextGen (gridWith 25 40 (blockCells 10 10)) = .ok (.ok next) ∧ valid next ∧
      next.RowsCount = (gridWith 25 40 (blockCells 10 10)).RowsCount ∧
      next.ColsCount = (gridWith 25 40 (blockCells 10 10)).ColsCount) ∧
    (∀ n : Nat, ∃ s, nextGenN n (gridWith 25 40 (blockCells 10 10)) = .ok (.ok s) ∧ valid s ∧
      s.RowsCount = (gridWith 25 40 (blockCells 10 10)).RowsCount ∧
      s.ColsCount = (gridWith 25 40 (blockCells 10 10)).ColsCount) :=
  ⟨valid_gridWith 25 40 (by decide) (by decide) _,
    grid_invariant (gridWith 25 40 (blockCells 10 10))
      (valid_gridWith 25 40 (by decide) (by decide) _)⟩

theorem gameStart_eq {sc : screen} (h : valid sc) (n : Nat) :
    gameStart n sc =
      ((List.range n).map fun k => rendering (step^[k] sc), .running (step^[n] sc)) := by
  induction n generalizing sc with
  | zero => rfl
  | succ n ih =>
    unfold gameStart
    rw [nextGen_eq h]
    simp only
    rw [ih (valid_step h), List.range_succ_eq_map, List.map_cons, List.map_map]
    rfl

/-- C16: from a grid that satisfies the grid invariant the loop of `gameStart`
never ends with an error: for every `n`, the first `n` passes leave the loop
running, the frames rendered are those of `sc`, `nextGen(sc)`, ... (pass `k` renders
the grid obtained by `k` calls of `nextGen`), each of these calls returns a nil
error, and the `nextGen` call of pass `n` returns a nil error as well. -/
theorem gameStart_runs (sc : screen) (h : valid sc) (n : Nat) :
    nextGenN n sc = .ok (.ok (step^[n] sc)) ∧ valid (step^[n] sc) ∧
    nextGen (step^[n] sc) = .ok (.ok (step^[n + 1] sc)) ∧
    nextGenN (n + 1) sc = .ok (.ok (step^[n + 1] sc)) ∧
    gameStart n sc =
      ((List.range n).map fun k => rendering (step^[k] sc), GameResult.running (step^[n] sc)) ∧
    (∀ err, (gameStart n sc).2 ≠ GameResult.returned err) ∧
    (∀ e, (gameStart n sc).2 ≠ GameResult.panicked e) := by
  obtain ⟨e1, v1⟩ := nextGenN_eq h n
  refine ⟨e1, v1, ?_, (nextGenN_eq h (n + 1)).1, gameStart_eq h n, ?_, ?_⟩
  · rw [nextGen_eq v1, Function.iterate_succ_apply']
  · intro err
    rw [gameStart_eq h n]
    simp
  · intro e
    rw [gameStart_eq h n]
    simp

theorem gameStart_runs_witness :
    valid (gridWith 3 4 [(1, 0), (1, 1), (1, 2)]) ∧
    nextGenN 2 (gridWith 3 4 [(1, 0), (1, 1), (1, 2)]) =
      .ok (.ok (step^[2] (gridWith 3 4 [(1, 0), (1, 1), (1, 2)]))) ∧
    valid (step^[2] (gridWith 3 4 [(1, 0), (1, 1), (1, 2)])) ∧
    nextGen (step^[2] (gridWith 3 4 [(1, 0), (1, 1), (1, 2)])) =
      .ok (.ok (step^[2 + 1] (gridWith 3 4 [(1, 0), (1, 1), (1, 2)]))) ∧
    nextGenN (2 + 1) (gridWith 3 4 [(1, 0), (1, 1), (1, 2)]) =
      .ok (.ok (step^[2 + 1] (gridWith 3 4 [(1, 0), (1, 1), (1, 2)]))) ∧
    gameStart 2 (gridWith 3 4 [(1, 0), (1, 1), (1, 2)]) =
      ((List.range 2).map fun k => rendering (step^[k] (gridWith 3 4 [(1, 0), (1, 1), (1, 2)])),
        GameResult.running (step^[2] (gridWith 3 4 [(1, 0), (1, 1), (1, 2)]))) ∧
    (∀ err, (gameStart 2 (gridWith 3 4 [(1, 0), (1, 1), (1, 2)])).2 ≠ GameResult.returned err) ∧
    (∀ e, (gameStart 2 (gridWith 3 4 [(1, 0), (1, 1), (1, 2)])).2 ≠ GameResult.panicked e) :=
  ⟨by decide, gameStart_runs (gridWith 3 4 [(1, 0), (1, 1), (1, 2)]) (by decide) 2⟩

set_option maxRecDepth 100000 in
theorem honeycomb_seed : setPattern (gridWith 25 40 []) honeycombPattern 10 10 =
    .ok (gridWith 25 40 (honeycombCells 10 10), none) := by
  decide!

set_option maxRecDepth 100000 in
/-- C17 (code defect): a pattern placed at a negative offset is not rejected. On
the 40x25 grid `checkPattern` returns nil for `gliderPattern` at offset `(-1, 10)`
and at offset `(10, -1)`, and `setPattern` then panics with an index out of range
at its first write. An error is returned only when the offset is so far negative
that `len(Field) + y < rows` or `len(Field[0]) + x < columns`, as at `(10, -30)`. -/
theorem setPattern_negative_panics :
    newScreen FieldColSize FieldRowSize = .ok (gridWith 25 40 []) ∧
    checkPattern (gridWith 25 40 []) gliderPattern (-1) 10 = .ok none ∧
    setPattern (gridWith 25 40 []) gliderPattern (-1) 10 = .error .indexOutOfRange ∧
    checkPattern (gridWith 25 40 []) gliderPattern 10 (-1) = .ok none ∧
    setPattern (gridWith 25 40 []) gliderPattern 10 (-1) = .error .indexOutOfRange ∧
    setPattern (gridWith 25 40 []) gliderPattern 10 (-30) =
      .ok (gridWith 25 40 [], some .patternRowFit) :=
  ⟨newScreen_main, by decide!, by decide!, by decide!, by decide!, by decide!⟩

/-- C20: each of the three patterns registered in `patternMap` is non-empty and
rectangular, and `setPattern(pattern, 10, 10)` on the grid that
`newScreen(FieldColSize, FieldRowSize)` returns gives a nil error (no write is out
of range); the living cells afterwards are those of the pattern at offset
`(10, 10)`. -/
theorem seeding_succeeds :
    patternMap.map Prod.snd = [gliderPattern, blockPattern, honeycombPattern] ∧
    newScreen FieldColSize FieldRowSize = .ok (gridWith 25 40 []) ∧
    (gliderPattern.length = 3 ∧ gliderPattern.map List.length = [3, 3, 3]) ∧
    (blockPattern.length = 2 ∧ blockPattern.map List.length = [2, 2]) ∧
    (honeycombPattern.length = 4 ∧ honeycombPattern.map List.length = [6, 6, 6, 6]) ∧
    patternMap.map (fun entry => setPattern (gridWith 25 40 []) entry.2 10 10) =
      [.ok (gridWith 25 40 (gliderCells 10 10), none),
        .ok (gridWith 25 40 (blockCells 10 10), none),
        .ok (gridWith 25 40 (honeycombCells 10 10), none)] := by
  refine ⟨rfl, newScreen_main, ⟨rfl, rfl⟩, ⟨rfl, rfl⟩, ⟨rfl, rfl⟩, ?_⟩
  simp only [patternMap, List.map_cons, List.map_nil]
  rw [glider_seed, block_seed, honeycomb_seed]

theorem alive_put_ne {f : List (List Bool)} {R C r c : Nat} (h : shape f R C) (hr : r < R)
    (hc : c < C) (v : Bool) {a b : Int} (hne : a ≠ (c : Int) ∨ b ≠ (r : Int)) :
    alive (put f r c v) a b = alive f a b := by
  unfold alive
  by_cases h1 : 0 ≤ a
  · by_cases h2 : 0 ≤ b
    · rw [get2_put h hr hc, if_neg (by omega)]
    · simp [h2]
  · simp [h1]

theorem livingNeighbors_put {f : List (List Bool)} {R C r c : Nat} (h : shape f R C)
    (hr : r < R) (hc : c < C) (v : Bool) :
    livingNeighbors (put f r c v) (c : Int) (r : Int) = livingNeighbors f (c : Int) (r : Int) := by
  rw [livingNeighbors_eq, livingNeighbors_eq]
  rw [alive_put_ne h hr hc v (a := (c : Int) - 1) (b := (r : Int) - 1) (by omega),
    alive_put_ne h hr hc v (a := (c : Int)) (b := (r : Int) - 1) (by omega),
    alive_put_ne h hr hc v (a := (c : Int) + 1) (b := (r : Int) - 1) (by omega),
    alive_put_ne h hr hc v (a := (c : Int) - 1) (b := (r : Int)) (by omega),
    alive_put_ne h hr hc v (a := (c : Int) + 1) (b := (r : Int)) (by omega),
    alive_put_ne h hr hc v (a := (c : Int) - 1) (b := (r : Int) + 1) (by omega),
    alive_put_ne h hr hc v (a := (c : Int)) (b := (r : Int) + 1) (by omega),
    alive_put_ne h hr hc v (a := (c : Int) + 1) (b := (r : Int) + 1) (by omega)]

/-- C18: the next state of a cell does not depend on the cell's own state. On a
grid that satisfies the grid invariant, for an in-bounds `(x, y)` holding `b`, the
write `Field[y][x] = !b` succeeds and gives a grid with the same dimensions on
which `(x, y)` holds `!b` while `countLivingNeighbor(x, y)` and `nextCellState(x, y)`
return what they return on the original grid. On any two grids and coordinates,
equal results of `countLivingNeighbor` give equal results of `nextCellState`. -/
theorem nextCellState_ignores_cell (sc : screen) (h : valid sc) (x y : Int)
    (hx : 0 ≤ x ∧ x < sc.ColsCount) (hy : 0 ≤ y ∧ y < sc.RowsCount) :
    (∃ b f1, readCell sc.Field x y = .ok b ∧ assign2 sc.Field y x (!b) = .ok f1 ∧
      valid { sc with Field := f1 } ∧ readCell f1 x y = .ok (!b) ∧
      countLivingNeighbor { sc with Field := f1 } x y = countLivingNeighbor sc x y ∧
      nextCellState { sc with Field := f1 } x y = nextCellState sc x y) ∧
    (∀ (sc1 sc2 : screen) (x1 y1 x2 y2 : Int),
      countLivingNeighbor sc1 x1 y1 = countLivingNeighbor sc2 x2 y2 →
        nextCellState sc1 x1 y1 = nextCellState sc2 x2 y2) := by
  obtain ⟨hs, hR, hC⟩ := valid_shape h
  obtain ⟨h1, h2, h3, h4⟩ := h
  constructor
  · obtain ⟨b, hb⟩ := get2_lt hs (r := y.toNat) (c := x.toNat) (by omega) (by omega)
    have hsp := shape_put hs y.toNat x.toNat (!b)
    have hxe : ((x.toNat : Nat) : Int) = x := Int.toNat_of_nonneg hx.1
    have hye : ((y.toNat : Nat) : Int) = y := Int.toNat_of_nonneg hy.1
    have hln := livingNeighbors_put hs (r := y.toNat) (c := x.toNat) (by omega) (by omega) (!b)
    rw [hxe, hye] at hln
    have hcnt : countLivingNeighbor { sc with Field := put sc.Field y.toNat x.toNat (!b) } x y =
        countLivingNeighbor sc x y := by
      rw [@countLivingNeighbor_eq { sc with Field := put sc.Field y.toNat x.toNat (!b) } _ _
        hsp hR, countLivingNeighbor_eq hs hR]
      show Except.ok (livingNeighbors (put sc.Field y.toNat x.toNat (!b)) x y) = _
      rw [hln]
    refine ⟨b, put sc.Field y.toNat x.toNat (!b), ?_, ?_, ?_, ?_, hcnt, ?_⟩
    · rw [readCell_eq _ hx.1 hy.1, hb]
    · exact assign2_eq hs hy.1 (by omega) hx.1 (by omega) _
    · refine ⟨h1, h2, ?_, ?_⟩
      · show ((put sc.Field y.toNat x.toNat (!b)).length : Int) = sc.RowsCount
        rw [hsp.1]
        omega
      · intro row hrow
        show (row.length : Int) = sc.ColsCount
        rw [hsp.2 row hrow]
        omega
    · rw [readCell_eq _ hx.1 hy.1, get2_put hs (by omega) (by omega), if_pos ⟨rfl, rfl⟩]
    · unfold nextCellState
      rw [hcnt]
  · intro sc1 sc2 x1 y1 x2 y2 he
    unfold nextCellState
    rw [he]

theorem nextCellState_ignores_cell_witness :
    valid (gridWith 3 4 [(0, 0), (2, 0), (1, 1)]) ∧
    ((0 : Int) ≤ 1 ∧ (1 : Int) < (gridWith 3 4 [(0, 0), (2, 0), (1, 1)]).ColsCount) ∧
    ((0 : Int) ≤ 1 ∧ (1 : Int) < (gridWith 3 4 [(0, 0), (2, 0), (1, 1)]).RowsCount) ∧
    (∃ b f1, readCell (gridWith 3 4 [(0, 0), (2, 0), (1, 1)]).Field 1 1 = .ok b ∧
      assign2 (gridWith 3 4 [(0, 0), (2, 0), (1, 1)]).Field 1 1 (!b) = .ok f1 ∧
      valid { gridWith 3 4 [(0, 0), (2, 0), (1, 1)] with Field := f1 } ∧
      readCell f1 1 1 = .ok (!b) ∧
      countLivingNeighbor { gridWith 3 4 [(0, 0), (2, 0), (1, 1)] with Field := f1 } 1 1 =
        countLivingNeighbor (gridWith 3 4 [(0, 0), (2, 0), (1, 1)]) 1 1 ∧
      nextCellState { gridWith 3 4 [(0, 0), (2, 0), (1, 1)] with Field := f1 } 1 1 =
        nextCellState (gridWith 3 4 [(0, 0), (2, 0), (1, 1)]) 1 1) ∧
    nextCellState (gridWith 3 4 [(0, 0), (2, 0), (1, 1)]) 1 1 = .ok true ∧
    nextCellState (gridWith 3 4 [(0, 0), (2, 0)]) 1 1 = .ok true :=
  ⟨by decide, by decide, by decide,
    (nextCellState_ignores_cell (gridWith 3 4 [(0, 0), (2, 0), (1, 1)]) (by decide) 1 1
      (by decide) (by decide)).1,
    by decide, by decide⟩

/-- C19: on a grid that satisfies the grid invariant, for all integers `x`, `y`
(on the border and outside the grid as well) `isSafeIdx(x, y)` and
`countLivingNeighbor(x, y)` return without a panic: the read of `Field[0]` in
`isSafeIdx` succeeds; whenever `isSafeIdx(a, b)` returns true, `0 <= b < len(Field)`,
the read of `Field[b]` succeeds and `0 <= a < len(Field[b])`, so the read of
`Field[b][a]` succeeds; and each of the eight guarded conditions of
`countLivingNeighbor` evaluates without a panic. -/
theorem neighbor_lookups_safe (sc : screen) (h : valid sc) (x y : Int) :
    (∃ row0, index sc.Field 0 = .ok row0) ∧
    (∃ b, isSafeIdx sc x y = .ok b) ∧
    (∃ n, countLivingNeighbor sc x y = .ok n) ∧
    (∀ a b : Int, isSafeIdx sc a b = .ok true →
      0 ≤ b ∧ b < sc.Field.length ∧
      ∃ row, index sc.Field b = .ok row ∧ 0 ≤ a ∧ a < row.length ∧
        ∃ cell, index row a = .ok cell) ∧
    (∀ d ∈ mooreOffsets, ∃ b, livingAt sc (x + d.1) (y + d.2) = .ok b) := by
  obtain ⟨hs, hR, hC⟩ := valid_shape h
  obtain ⟨h1, h2, h3, h4⟩ := h
  refine ⟨?_, ⟨_, isSafeIdx_eq hs hR x y⟩, ⟨_, countLivingNeighbor_eq hs hR x y⟩, ?_,
    fun d _ => ⟨_, livingAt_eq hs hR _ _⟩⟩
  · have h0 : (0 : Int).toNat < sc.Field.length := by
      simp
      omega
    exact ⟨_, index_ok (le_refl 0) h0⟩
  · intro a b hsafe
    rw [isSafeIdx_eq hs hR] at hsafe
    have hin := of_decide_eq_true (Except.ok.inj hsafe)
    have hbl : b.toNat < sc.Field.length := by omega
    refine ⟨hin.2.2.1, by omega, _, index_ok hin.2.2.1 hbl, hin.1, ?_, ?_⟩
    · have hlen := h4 _ (List.get_mem sc.Field b.toNat hbl)
      omega
    · have hlen := h4 _ (List.get_mem sc.Field b.toNat hbl)
      have hal : a.toNat < (sc.Field.get ⟨b.toNat, hbl⟩).length := by omega
      exact ⟨_, index_ok hin.1 hal⟩

theorem neighbor_lookups_safe_witness :
    valid (gridWith 3 4 [(0, 0), (3, 2)]) ∧
    (∃ row0, index (gridWith 3 4 [(0, 0), (3, 2)]).Field 0 = .ok row0) ∧
    (∃ b, isSafeIdx (gridWith 3 4 [(0, 0), (3, 2)]) 4 (-1) = .ok b) ∧
    (∃ n, countLivingNeighbor (gridWith 3 4 [(0, 0), (3, 2)]) 4 (-1) = .ok n) ∧
    (∀ a b : Int, isSafeIdx (gridWith 3 4 [(0, 0), (3, 2)]) a b = .ok true →
      0 ≤ b ∧ b < (gridWith 3 4 [(0, 0), (3, 2)]).Field.length ∧
      ∃ row, index (gridWith 3 4 [(0, 0), (3, 2)]).Field b = .ok row ∧ 0 ≤ a ∧ a < row.length ∧
        ∃ cell, index row a = .ok cell) ∧
    (∀ d ∈ mooreOffsets, ∃ b,
      livingAt (gridWith 3 4 [(0, 0), (3, 2)]) ((4 : Int) + d.1) ((-1 : Int) + d.2) = .ok b) :=
  ⟨by decide, neighbor_lookups_safe (gridWith 3 4 [(0, 0), (3, 2)]) (by decide) 4 (-1)⟩

theorem newScreenRows_spec (h : Heap) (C : Nat) :
    ∀ (n i : Nat),
      newScreenRows h.outers.length C i n
        { outers := h.outers ++
            [((List.range i).map fun k => some (h.rows.length + k)) ++ List.replicate n none]
          rows := h.rows ++ List.replicate i (List.replicate C false) } =
      .ok (h.extend (i + n) (List.replicate (i + n) (List.replicate C false))) := by
  intro n
  induction n with
  | zero =>
    intro i
    simp [newScreenRows, Heap.extend]
  | succ n ih =>
    intro i
    unfold newScreenRows
    have hlen : (((List.range i).map fun k => some (h.rows.length + k)) ++
        List.replicate (n + 1) (none : Option Nat)).length = i + (n + 1) := by simp
    simp only [Heap.outerAt, List.getElem?_concat_length, Option.getD_some, assign]
    rw [if_neg (by omega), if_pos (by rw [hlen]; omega)]
    simp only [Int.toNat_ofNat]
    have e := ih (i + 1)
    have e1 : i + 1 + n = i + (n + 1) := by omega
    rw [e1] at e
    rw [← e]
    congr 2
    · rw [List.set_append_right _ _ (le_refl _), Nat.sub_self, List.set_cons_zero]
      congr 2
      have hm : ((List.range i).map fun k => some (h.rows.length + k)).length = i := by simp
      rw [List.set_append_right _ _ (by omega), hm, Nat.sub_self, List.replicate_succ,
        List.set_cons_zero, List.range_succ, List.map_append, List.append_assoc]
      simp
    · rw [List.append_assoc, ← List.replicate_succ']
theorem newScreenRef_eq (h : Heap) {colSize rowSize : Int} (hc : 0 < colSize)
    (hr : 0 < rowSize) :
    newScreenRef colSize rowSize h =
      .ok (.ok { RowsCount := rowSize, ColsCount := colSize, Field := h.outers.length },
        h.extend rowSize.toNat
          (List.replicate rowSize.toNat (List.replicate colSize.toNat false))) := by
  unfold newScreenRef
  rw [if_neg (by omega), if_neg (by omega)]
  have e := newScreenRows_spec h colSize.toNat rowSize.toNat 0
  simp only [List.range_zero, List.map_nil, List.nil_append, List.replicate_zero,
    List.append_nil, Nat.zero_add] at e
  simp only
  rw [e]

theorem wfRef_iff {h : Heap} {s : screenRef} :
    wfRef h s = true ↔ s.Field < h.outers.length ∧
      ∀ a, some a ∈ h.outerAt s.Field → a < h.rows.length := by
  unfold wfRef
  rw [Bool.and_eq_true, decide_eq_true_eq, List.all_eq_true]
  constructor
  · rintro ⟨h1, h2⟩
    refine ⟨h1, fun a ha => ?_⟩
    have := h2 _ ha
    simpa using this
  · rintro ⟨h1, h2⟩
    refine ⟨h1, fun hdr hm => ?_⟩
    cases hdr with
    | none => rfl
    | some a => simpa using h2 a hm

theorem outerAt_extend_old {h : Heap} {o : Nat} (ho : o < h.outers.length) (R : Nat)
    (nf : List (List Bool)) : (h.extend R nf).outerAt o = h.outerAt o := by
  simp only [Heap.outerAt, Heap.extend]
  rw [List.getElem?_append_left ho]

theorem outerAt_extend_new (h : Heap) (R : Nat) (nf : List (List Bool)) :
    (h.extend R nf).outerAt h.outers.length =
      (List.range R).map fun i => some (h.rows.length + i) := by
  simp [Heap.outerAt, Heap.extend]

theorem rowAt_extend_old {h : Heap} {a : Nat} (ha : a < h.rows.length) (R : Nat)
    (nf : List (List Bool)) : (h.extend R nf).rowAt (some a) = h.rowAt (some a) := by
  simp only [Heap.rowAt, Heap.extend]
  rw [List.getElem?_append_left ha]

theorem rowAt_extend_new (h : Heap) (R : Nat) (nf : List (List Bool)) (i : Nat) :
    (h.extend R nf).rowAt (some (h.rows.length + i)) = (nf[i]?).getD [] := by
  simp only [Heap.rowAt, Heap.extend]
  rw [List.getElem?_append_right (by omega)]
  simp

theorem view_extend_old {h : Heap} {s : screenRef} (hw : wfRef h s = true) (R : Nat)
    (nf : List (List Bool)) : (h.extend R nf).view s = h.view s := by
  obtain ⟨h1, h2⟩ := wfRef_iff.mp hw
  unfold Heap.view
  rw [outerAt_extend_old h1]
  congr 1
  apply List.map_congr_left
  intro hdr hm
  cases hdr with
  | none => rfl
  | some a => exact rowAt_extend_old (h2 a hm) R nf

theorem view_extend_new (h : Heap) {R : Nat} {nf : List (List Bool)} (hl : nf.length = R)
    (r c : Int) :
    (h.extend R nf).view { RowsCount := r, ColsCount := c, Field := h.outers.length } =
      { RowsCount := r, ColsCount := c, Field := nf } := by
  unfold Heap.view
  simp only [outerAt_extend_new, List.map_map]
  congr 1
  apply List.ext_getElem
  · simp [hl]
  · intro i h1 h2
    simp only [List.getElem_map, List.getElem_range, Function.comp]
    rw [rowAt_extend_new, List.getElem?_eq_getElem h2]
    rfl

theorem wfRef_extend_old {h : Heap} {s : screenRef} (hw : wfRef h s = true) (R : Nat)
    (nf : List (List Bool)) : wfRef (h.extend R nf) s = true := by
  obtain ⟨h1, h2⟩ := wfRef_iff.mp hw
  rw [wfRef_iff, outerAt_extend_old h1]
  refine ⟨by simp [Heap.extend]; omega, fun a ha => ?_⟩
  have := h2 a ha
  simp [Heap.extend]
  omega

theorem wfRef_extend_new (h : Heap) {R : Nat} {nf : List (List Bool)} (hl : nf.length = R)
    (r c : Int) :
    wfRef (h.extend R nf) { RowsCount := r, ColsCount := c, Field := h.outers.length } = true := by
  rw [wfRef_iff]
  simp only [outerAt_extend_new]
  refine ⟨by simp [Heap.extend], fun a ha => ?_⟩
  simp only [List.mem_map, List.mem_range] at ha
  obtain ⟨i, hi, he⟩ := ha
  cases he
  simp [Heap.extend]
  omega

theorem writeCell_extend (h : Heap) {R : Nat} {nf : List (List Bool)} (hl : nf.length = R)
    (y x : Int) (v : Bool) :
    writeCell (h.extend R nf) h.outers.length y x v =
      match assign2 nf y x v with
      | .error e => .error e
      | .ok nf1 => .ok (h.extend R nf1) := by
  unfold writeCell assign2
  rw [outerAt_extend_new]
  by_cases hy : 0 ≤ y ∧ y.toNat < R
  · have hl1 : y.toNat < ((List.range R).map fun i => some (h.rows.length + i)).length := by
      simp
      exact hy.2
    have hl2 : y.toNat < nf.length := by omega
    rw [index_ok hy.1 hl1, index_ok hy.1 hl2]
    simp only [List.get_eq_getElem, List.getElem_map, List.getElem_range]
    rw [rowAt_extend_new, List.getElem?_eq_getElem hl2]
    simp only [Option.getD_some]
    cases ha : assign nf[y.toNat] x v with
    | error e => rfl
    | ok row1 =>
      simp only [assign]
      rw [if_neg (by omega), if_pos hl2]
      simp only [Heap.extend]
      rw [List.set_append_right _ _ (by omega)]
      simp
  · have e1 : index ((List.range R).map fun i => some (h.rows.length + i)) y =
        .error .indexOutOfRange := by
      unfold index
      by_cases h0 : y < 0
      · rw [if_pos h0]
      · rw [if_neg h0, List.getElem?_eq_none (by simp; omega)]
    have e2 : index nf y = .error .indexOutOfRange := by
      unfold index
      by_cases h0 : y < 0
      · rw [if_pos h0]
      · rw [if_neg h0, List.getElem?_eq_none (by omega)]
    rw [e1, e2]
theorem nextGenRowRef_extend {h : Heap} {sc next : screenRef} (hw : wfRef h sc = true)
    (hn : next.Field = h.outers.length) {R C : Nat} (y : Int) :
    ∀ (rest : List Bool) (x : Nat) (nf : List (List Bool)), shape nf R C →
      nextGenRowRef sc next y x rest.length (h.extend R nf) =
        match nextGenRow (h.view sc) y x rest nf with
        | .error e => .error e
        | .ok nf1 => .ok (h.extend R nf1) := by
  intro rest
  induction rest with
  | nil =>
    intro x nf _
    rfl
  | cons col rest ih =>
    intro x nf hs
    simp only [List.length_cons, nextGenRowRef, nextGenRow]
    rw [view_extend_old hw, hn]
    cases hv : nextCellState (h.view sc) (x : Int) y with
    | error e => rfl
    | ok v =>
      simp only
      rw [writeCell_extend h hs.1]
      cases ha : assign2 nf y (x : Int) v with
      | error e => rfl
      | ok nf1 =>
        simp only
        exact ih (x + 1) nf1 (assign2_shape hs ha)

theorem nextGenRow_shape {sc : screen} {R C : Nat} (y : Int) :
    ∀ (rest : List Bool) (x : Nat) (f f1 : List (List Bool)), shape f R C →
      nextGenRow sc y x rest f = .ok f1 → shape f1 R C := by
  intro rest
  induction rest with
  | nil =>
    intro x f f1 hs he
    simp only [nextGenRow] at he
    cases he
    exact hs
  | cons col rest ih =>
    intro x f f1 hs he
    simp only [nextGenRow] at he
    cases hv : nextCellState sc (x : Int) y with
    | error e =>
      rw [hv] at he
      cases he
    | ok v =>
      rw [hv] at he
      simp only at he
      cases ha : assign2 f y (x : Int) v with
      | error e =>
        rw [ha] at he
        cases he
      | ok f2 =>
        rw [ha] at he
        exact ih (x + 1) f2 f1 (assign2_shape hs ha) he

theorem rowAt_getD (h : Heap) (arr : List (Option Nat)) (y : Nat) :
    h.rowAt ((arr[y]?).getD none) = (((arr.map h.rowAt)[y]?).getD []) := by
  rw [List.getElem?_map]
  cases arr[y]? with
  | none => rfl
  | some hdr => rfl

theorem nextGenRowsRef_extend {h : Heap} {sc next : screenRef} (hw : wfRef h sc = true)
    (hn : next.Field = h.outers.length) {R C : Nat} :
    ∀ (rest : List (List Bool)) (y : Nat) (nf : List (List Bool)),
      (h.view sc).Field.drop y = rest → shape nf R C →
      nextGenRowsRef sc next y rest.length (h.extend R nf) =
        match nextGenRows (h.view sc) y rest nf with
        | .error e => .error e
        | .ok nf1 => .ok (h.extend R nf1) := by
  intro rest
  induction rest with
  | nil =>
    intro y nf _ _
    rfl
  | cons row rest ih =>
    intro y nf hd hs
    simp only [List.length_cons, nextGenRowsRef, nextGenRows]
    have hrow : (((h.view sc).Field)[y]?).getD [] = row := by
      have := List.getElem?_drop (h.view sc).Field y 0
      rw [hd] at this
      simp only [List.getElem?_cons_zero, Nat.add_zero] at this
      rw [← this]
      rfl
    have hlen : ((h.extend R nf).rowAt ((((h.extend R nf).outerAt sc.Field)[y]?).getD none)).length =
        row.length := by
      rw [rowAt_getD]
      have hv := view_extend_old hw R nf
      have hf : ((h.extend R nf).outerAt sc.Field).map (h.extend R nf).rowAt =
          (h.view sc).Field := congrArg screen.Field hv
      rw [hf, hrow]
    rw [hlen, nextGenRowRef_extend hw hn (y : Int) row 0 nf hs]
    cases hr : nextGenRow (h.view sc) (y : Int) 0 row nf with
    | error e => rfl
    | ok nf1 =>
      simp only
      apply ih (y + 1) nf1 _ (nextGenRow_shape _ row 0 nf nf1 hs hr)
      have hd2 : List.drop (y + 1) (h.view sc).Field = List.drop 1 (List.drop y (h.view sc).Field) := by
        rw [List.drop_drop]
      rw [hd2, hd]
      rfl

/-- The heap version of `nextGen` computes what `nextGen` computes on the grid
that `sc` denotes, and puts the result into newly made arrays. -/
theorem nextGenRef_eq {h : Heap} {sc : screenRef} (hw : wfRef h sc = true)
    (hv : valid (h.view sc)) :
    nextGenRef sc h =
      .ok (.ok { RowsCount := sc.RowsCount, ColsCount := sc.ColsCount, Field := h.outers.length },
        h.extend sc.RowsCount.toNat (step (h.view sc)).Field) := by
  have hpure := nextGen_eq hv
  obtain ⟨hs, hR, hC⟩ := valid_shape hv
  obtain ⟨h1, h2, h3, h4⟩ := hv
  have hr : 0 < sc.RowsCount := h1
  have hc : 0 < sc.ColsCount := h2
  unfold nextGenRef
  rw [newScreenRef_eq h hc hr]
  simp only
  unfold nextGen newScreen at hpure
  have hr2 : ¬ (h.view sc).RowsCount ≤ 0 := by omega
  have hc2 : ¬ (h.view sc).ColsCount ≤ 0 := by omega
  rw [if_neg hc2, if_neg hr2] at hpure
  simp only at hpure
  have hnew : shape (List.replicate sc.RowsCount.toNat (List.replicate sc.ColsCount.toNat false))
      sc.RowsCount.toNat sc.ColsCount.toNat := by
    refine ⟨by simp, ?_⟩
    intro row hrow
    rw [List.eq_of_mem_replicate hrow]
    simp
  have hcount : ((h.extend sc.RowsCount.toNat
      (List.replicate sc.RowsCount.toNat (List.replicate sc.ColsCount.toNat false))).outerAt
        sc.Field).length = (h.view sc).Field.length := by
    rw [outerAt_extend_old (wfRef_iff.mp hw).1]
    simp [Heap.view]
  rw [hcount, nextGenRowsRef_extend hw rfl (h.view sc).Field 0 _ (List.drop_zero _) hnew]
  have hfield : List.map (fun _ => List.replicate (h.view sc).ColsCount.toNat false)
      (List.replicate (h.view sc).RowsCount.toNat ([] : List Bool)) =
      List.replicate sc.RowsCount.toNat (List.replicate sc.ColsCount.toNat false) := by
    simp [Heap.view]
  rw [hfield] at hpure
  cases hrows : nextGenRows (h.view sc) 0 (h.view sc).Field
      (List.replicate sc.RowsCount.toNat (List.replicate sc.ColsCount.toNat false)) with
  | error e =>
    rw [hrows] at hpure
    cases hpure
  | ok f =>
    rw [hrows] at hpure
    simp only at hpure
    have hf := Except.ok.inj (Except.ok.inj hpure)
    simp only
    rw [← hf]
theorem extend_take (h : Heap) (R : Nat) (nf : List (List Bool)) :
    (h.extend R nf).outers.take h.outers.length = h.outers ∧
    (h.extend R nf).rows.take h.rows.length = h.rows := by
  simp [Heap.extend]

theorem view_nextGenRef (h : Heap) (sc : screenRef) :
    (h.extend sc.RowsCount.toNat (step (h.view sc)).Field).view
      { RowsCount := sc.RowsCount, ColsCount := sc.ColsCount, Field := h.outers.length } =
    step (h.view sc) := by
  have hl : (step (h.view sc)).Field.length = sc.RowsCount.toNat :=
    (shape_nextField _ _ _).1
  rw [view_extend_new h hl]
  rfl

/-- C14: `nextGen` never mutates its input. On a heap in which `sc` denotes a grid
that satisfies the grid invariant, `nextGen` returns a nil error and a grid `next`
in a newly made outer array; every array that existed before the call has the
contents it had (all writes go to newly made arrays), so `sc` denotes the same
grid after the call, and `next` denotes what `nextGen` computes from that grid.
A second call, on `next`, leaves `sc` and `next` unchanged in turn and returns the
grid of two generations. -/
theorem nextGen_input_unchanged (h : Heap) (sc : screenRef) (hw : wfRef h sc = true)
    (hv : valid (h.view sc)) :
    ∃ next h1, nextGenRef sc h = .ok (.ok next, h1) ∧
      h1.outers.take h.outers.length = h.outers ∧ h1.rows.take h.rows.length = h.rows ∧
      next.Field = h.outers.length ∧
      h1.view sc = h.view sc ∧
      nextGen (h.view sc) = .ok (.ok (h1.view next)) ∧
      ∃ next2 h2, nextGenRef next h1 = .ok (.ok next2, h2) ∧
        h2.outers.take h1.outers.length = h1.outers ∧ h2.rows.take h1.rows.length = h1.rows ∧
        h2.view sc = h.view sc ∧ h2.view next = h1.view next ∧
        nextGen (h1.view next) = .ok (.ok (h2.view next2)) ∧
        nextGenN 2 (h.view sc) = .ok (.ok (h2.view next2)) := by
  have hw1 := wfRef_extend_old hw sc.RowsCount.toNat (step (h.view sc)).Field
  have hl : (step (h.view sc)).Field.length = sc.RowsCount.toNat := (shape_nextField _ _ _).1
  have hwn := wfRef_extend_new h hl sc.RowsCount sc.ColsCount
  have hvn := view_nextGenRef h sc
  have hv1 : valid ((h.extend sc.RowsCount.toNat (step (h.view sc)).Field).view
      { RowsCount := sc.RowsCount, ColsCount := sc.ColsCount, Field := h.outers.length }) := by
    rw [hvn]
    exact valid_step hv
  have hvs := view_extend_old hw sc.RowsCount.toNat (step (h.view sc)).Field
  refine ⟨_, _, nextGenRef_eq hw hv, (extend_take _ _ _).1, (extend_take _ _ _).2, rfl, hvs,
    ?_, _, _, nextGenRef_eq hwn hv1, (extend_take _ _ _).1, (extend_take _ _ _).2, ?_, ?_, ?_, ?_⟩
  · rw [hvn]
    exact nextGen_eq hv
  · rw [view_extend_old hw1, hvs]
  · rw [view_extend_old hwn]
  · rw [view_nextGenRef (h.extend sc.RowsCount.toNat (step (h.view sc)).Field)
      { RowsCount := sc.RowsCount, ColsCount := sc.ColsCount, Field := h.outers.length }]
    exact nextGen_eq hv1
  · rw [view_nextGenRef (h.extend sc.RowsCount.toNat (step (h.view sc)).Field)
      { RowsCount := sc.RowsCount, ColsCount := sc.ColsCount, Field := h.outers.length }, hvn]
    exact (nextGenN_eq hv 2).1

theorem nextGen_input_unchanged_witness :
    wfRef { outers := [[some 1, some 0]], rows := [[false, true, false], [true, true, false]] }
      { RowsCount := 2, ColsCount := 3, Field := 0 } = true ∧
    valid (Heap.view
      { outers := [[some 1, some 0]], rows := [[false, true, false], [true, true, false]] }
      { RowsCount := 2, ColsCount := 3, Field := 0 }) ∧
    ∃ next h1,
      nextGenRef { RowsCount := 2, ColsCount := 3, Field := 0 }
        { outers := [[some 1, some 0]], rows := [[false, true, false], [true, true, false]] } =
        .ok (.ok next, h1) ∧
      h1.outers.take
        (Heap.mk [[some 1, some 0]] [[false, true, false], [true, true, false]]).outers.length =
        (Heap.mk [[some 1, some 0]] [[false, true, false], [true, true, false]]).outers ∧
      h1.rows.take
        (Heap.mk [[some 1, some 0]] [[false, true, false], [true, true, false]]).rows.length =
        (Heap.mk [[some 1, some 0]] [[false, true, false], [true, true, false]]).rows ∧
      next.Field =
        (Heap.mk [[some 1, some 0]] [[false, true, false], [true, true, false]]).outers.length ∧
      h1.view { RowsCount := 2, ColsCount := 3, Field := 0 } =
        (Heap.mk [[some 1, some 0]] [[false, true, false], [true, true, false]]).view
          { RowsCount := 2, ColsCount := 3, Field := 0 } ∧
      nextGen ((Heap.mk [[some 1, some 0]] [[false, true, false], [true, true, false]]).view
        { RowsCount := 2, ColsCount := 3, Field := 0 }) = .ok (.ok (h1.view next)) ∧
      ∃ next2 h2, nextGenRef next h1 = .ok (.ok next2, h2) ∧
        h2.outers.take h1.outers.length = h1.outers ∧ h2.rows.take h1.rows.length = h1.rows ∧
        h2.view { RowsCount := 2, ColsCount := 3, Field := 0 } =
          (Heap.mk [[some 1, some 0]] [[false, true, false], [true, true, false]]).view
            { RowsCount := 2, ColsCount := 3, Field := 0 } ∧
        h2.view next = h1.view next ∧
        nextGen (h1.view next) = .ok (.ok (h2.view next2)) ∧
        nextGenN 2 ((Heap.mk [[some 1, some 0]] [[false, true, false], [true, true, false]]).view
          { RowsCount := 2, ColsCount := 3, Field := 0 }) = .ok (.ok (h2.view next2)) :=
  ⟨by decide, by decide,
    nextGen_input_unchanged
      { outers := [[some 1, some 0]], rows := [[false, true, false], [true, true, false]] }
      { RowsCount := 2, ColsCount := 3, Field := 0 } (by decide) (by decide)⟩

/-- When `next.Field` shares the outer array of `sc.Field` (no new array is made),
the writes of the inner loop of `nextGen` change the grid that `sc` denotes: the
heap model tells aliased grids apart. -/
theorem nextGenRowRef_aliased :
    ∃ h1, nextGenRowRef { RowsCount := 1, ColsCount := 3, Field := 0 }
        { RowsCount := 1, ColsCount := 3, Field := 0 } 0 0 3
        { outers := [[some 0]], rows := [[true, false, true]] } = .ok h1 ∧
      h1.view { RowsCount := 1, ColsCount := 3, Field := 0 } ≠
        (Heap.mk [[some 0]] [[true, false, true]]).view
          { RowsCount := 1, ColsCount := 3, Field := 0 } := by
  refine ⟨{ outers := [[some 0]], rows := [[false, false, false]] }, by decide, by decide⟩

end Lifegame
